import Mathlib

/-!
# pup-sniffer: the sniffing engine of `sniffer.go`

A shallow embedding of the Go sniffer (`src/golang/sniffer.go`) and of the parts of the
HTTP adapter (`src/golang/server.go`) that feed it.

Modelling conventions.

* Go strings are modelled by Lean strings (sequences of Unicode code points).
* Go maps `map[string]string` are modelled by association lists; a lookup returns the
  first entry of a key.
* The hit list `realURLs`, the probed set `headURLs`, the cancel handle of the context and
  the goroutines started by the handler are the fields of an explicit session state; the
  request handler and the completion of a HEAD probe are atomic steps on that state.
* Library code that is not part of the repository (`regexp.Compile` on caller-supplied
  patterns, `net/url.Parse`) is a parameter of the development (`Env`).  The two patterns
  that `NewSniffer` compiles are fixed in the source and are embedded as regular
  expressions with an executable matcher.
* Go `int` and `time.Duration` are 64-bit: the conversion of milliseconds to a duration
  wraps around as `int64` does.
* `parseHeaders` of the adapter takes the case table of `strings.ToLower` as a parameter.
-/

namespace PupSniffer

/-! ## The `strings` package -/

/-- Go `strings.HasPrefix`. -/
def hasPrefix (s pre : String) : Bool :=
  pre.data.isPrefixOf s.data

/-- Substring test on character lists. -/
def containsChars : List Char → List Char → Bool
  | [], sub => sub.isPrefixOf []
  | c :: cs, sub => sub.isPrefixOf (c :: cs) || containsChars cs sub

/-- Go `strings.Contains`. -/
def contains (s sub : String) : Bool :=
  containsChars s.data sub.data

/-- Go `unicode.ToLower` on one code point.  The ASCII capitals map to their small letters;
the only code points outside ASCII whose lower case is an ASCII letter are U+0130 (to `i`)
and U+212A, the Kelvin sign (to `k`).  Every other code point outside ASCII has a lower case
outside ASCII and is left in place here, which does not change any test of the result
against an ASCII pattern. -/
def toLowerRune (c : Char) : Char :=
  if 65 ≤ c.toNat ∧ c.toNat ≤ 90 then Char.ofNat (c.toNat + 32)
  else if c.toNat = 0x130 then 'i'
  else if c.toNat = 0x212A then 'k'
  else c

/-- Go `strings.ToLower`. -/
def toLower (s : String) : String :=
  ⟨s.data.map toLowerRune⟩

/-! ## Regular expressions (the fragment of RE2 used by `NewSniffer`) -/

/-- Regular expressions over code points. -/
inductive Regex where
  | eps : Regex
  | chr : (Char → Bool) → Regex
  | cat : Regex → Regex → Regex
  | alt : Regex → Regex → Regex
  | star : Regex → Regex

namespace Regex

/-- Iteration of a one-step matcher; every round has to consume input. -/
def starFrom (step : List Char → List (List Char)) : Nat → List Char → List (List Char)
  | 0, cs => [cs]
  | n + 1, cs =>
    cs :: ((step cs).filter (fun r => r.length < cs.length)).flatMap (starFrom step n)

/-- All the suffixes that remain after matching a prefix of the input. -/
def rests : Regex → List Char → List (List Char)
  | eps, cs => [cs]
  | chr _, [] => []
  | chr p, c :: cs => if p c then [cs] else []
  | cat a b, cs => (rests a cs).flatMap (rests b)
  | alt a b, cs => rests a cs ++ rests b cs
  | star a, cs => starFrom (rests a) cs.length cs

/-- Does some prefix of the input match. -/
def matchesPrefix (r : Regex) (cs : List Char) : Bool :=
  !(r.rests cs).isEmpty

/-- Unanchored search on a character list. -/
def search (r : Regex) : List Char → Bool
  | [] => r.matchesPrefix []
  | c :: cs => r.matchesPrefix (c :: cs) || search r cs

/-- Go `(*Regexp).MatchString`: the pattern matches somewhere in the string. -/
def MatchString (r : Regex) (s : String) : Bool :=
  r.search s.data

/-- Zero or one occurrence, `r?`. -/
def opt (r : Regex) : Regex := alt r eps

/-- Exactly `n` occurrences, `r{n}`. -/
def times (r : Regex) : Nat → Regex
  | 0 => eps
  | n + 1 => cat r (times r n)

/-- At least `n` occurrences, `r{n,}`. -/
def atLeast (r : Regex) (n : Nat) : Regex := cat (times r n) (star r)

/-- Sequence of a list of expressions. -/
def seq : List Regex → Regex
  | [] => eps
  | r :: rs => cat r (seq rs)

/-- A literal, matched case-sensitively. -/
def lit (s : String) : Regex :=
  seq (s.data.map (fun c => chr (fun d => d == c)))

/-- Simple case folding of RE2 under the flag `i` for a small ASCII letter or a digit `c`
of a pattern: `c` itself, its capital, and for `k` and `s` the further code point of their
folding orbits (U+212A, the Kelvin sign, and U+017F, the long s). -/
def foldsTo (c d : Char) : Bool :=
  d == c || (97 ≤ c.toNat && c.toNat ≤ 122 && d.toNat + 32 == c.toNat) ||
    (c == 'k' && d.toNat == 0x212A) || (c == 's' && d.toNat == 0x17F)

/-- A literal written in small letters, matched under the flag `i`. -/
def litFold (s : String) : Regex :=
  seq (s.data.map (fun c => chr (foldsTo c)))

/-- One of a list of literals under the flag `i`. -/
def anyLitFold : List String → Regex
  | [] => chr (fun _ => false)
  | [s] => litFold s
  | s :: ss => alt (litFold s) (anyLitFold ss)

end Regex

/-- The class `[^\s"'<>]`; in RE2 `\s` is `[\t\n\f\r ]`. -/
def urlChar (c : Char) : Bool :=
  !(c == '\t' || c == '\n' || c == Char.ofNat 12 || c == '\r' || c == ' ' ||
    c == Char.ofNat 34 || c == Char.ofNat 39 || c == '<' || c == '>')

/-- The pattern of `urlRegex` in `NewSniffer`:
`(?i)https?://[^\s"'<>]{12,}?\.(m3u8|mp4|flv|avi|mkv|rm|wmv|mpg|m4a|mp3)(\?[^\s"'<>]*)?|https?://[^\s"'<>]*?(video|obj)/tos[^\s"'<>]*`.
Lazy and greedy repetition accept the same strings, so `MatchString` does not tell them
apart. -/
def urlRegexPattern : Regex :=
  Regex.alt
    (Regex.seq [Regex.litFold "http", Regex.opt (Regex.litFold "s"), Regex.lit "://",
      Regex.atLeast (Regex.chr urlChar) 12, Regex.lit ".",
      Regex.anyLitFold ["m3u8", "mp4", "flv", "avi", "mkv", "rm", "wmv", "mpg", "m4a", "mp3"],
      Regex.opt (Regex.cat (Regex.lit "?") (Regex.star (Regex.chr urlChar)))])
    (Regex.seq [Regex.litFold "http", Regex.opt (Regex.litFold "s"), Regex.lit "://",
      Regex.star (Regex.chr urlChar), Regex.anyLitFold ["video", "obj"], Regex.litFold "/tos",
      Regex.star (Regex.chr urlChar)])

/-- The pattern of `urlNoHead` in `NewSniffer`: `https?://[^\s"'<>]{12,}?(ac=dm&url=)`
(case-sensitive). -/
def urlNoHeadPattern : Regex :=
  Regex.seq [Regex.lit "http", Regex.opt (Regex.lit "s"), Regex.lit "://",
    Regex.atLeast (Regex.chr urlChar) 12, Regex.lit "ac=dm&url="]

/-! ## Data model (`sniffer.go`, lines 19-83) -/

/-- Go `map[string]string`, as an association list. -/
abbrev StrMap := List (String × String)

/-- Assignment `m[k] = v` on a map. -/
def StrMap.set (m : StrMap) (k v : String) : StrMap :=
  m.filter (fun e => e.1 != k) ++ [(k, v)]

/-- The struct `SnifferConfig`. -/
structure SnifferConfig where
  Debug : Bool := false
  Headless : Bool := false
  UseChrome : Bool := false
  DeviceType : String := ""
  UserAgent : String := ""
  Timeout : Int := 0
  SnifferTimeout : Int := 0
  HeadTimeout : Int := 0
  ConcurrencyNum : Int := 0
  CustomRegex : String := ""

/-- The struct `Sniffer`; the browser handle is kept apart, as the state `Browser`. -/
structure Sniffer where
  config : SnifferConfig
  urlRegex : Regex
  urlNoHead : Regex
  blockResources : List String

/-- The struct `SnifferOptions`. -/
structure SnifferOptions where
  Mode : Int := 0
  CustomRegex : String := ""
  SnifferExclude : String := ""
  Timeout : Int := 0
  CSS : String := ""
  IsPc : Bool := false
  Headers : StrMap := []
  Script : String := ""
  InitScript : String := ""

/-- The struct `URLWithHeaders`: one hit. -/
structure URLWithHeaders where
  URL : String
  Headers : StrMap
deriving DecidableEq, Repr

/-- The struct `SnifferResult`.  `URLs` and `Headers` are `none` when the Go value is nil
(the field is then left out of the JSON form). -/
structure SnifferResult where
  URL : String := ""
  URLs : Option (List URLWithHeaders) := none
  Headers : Option StrMap := none
  From : String := ""
  Cost : String := ""
  Code : Int := 0
  Script : String := ""
  InitScript : String := ""
  Msg : String := ""
deriving DecidableEq, Repr

/-- Library code outside the repository.  `compile p` is `regexp.Compile(p)`: `none` when
the pattern does not compile, otherwise the `MatchString` of the compiled expression.
`parsePath u` is `url.Parse(u)`: `none` when it reports an error, otherwise the field
`Path` of the parsed URL. -/
structure Env where
  compile : String → Option (String → Bool)
  parsePath : String → Option String

/-- One paused request of the page, as the hijack handler reads it: `URL().String()`,
`Method()`, `Headers()` and `Type()` (the field `ResourceType`). -/
structure Request where
  URL : String
  Method : String := "GET"
  Headers : StrMap := []
  ResourceType : String := "Document"
deriving DecidableEq, Repr

/-- What the handler does with the paused request. -/
inductive Response where
  | fail (reason : String)
  | continueRequest
deriving DecidableEq, Repr

/-- One goroutine started by the handler for a HEAD probe: its argument `checkURL` and the
request headers that its closure captured. -/
structure Probe where
  checkURL : String
  headers : StrMap
deriving DecidableEq, Repr

/-- The state shared by the handler, the probes and the main routine of one call of
`SnifferMediaURL`: `realURLs`, the keys of `headURLs`, whether `cancel()` was called, the
probes started so far and those that have not finished yet. -/
structure Session where
  realURLs : List URLWithHeaders := []
  headURLs : List String := []
  cancelled : Bool := false
  probes : List Probe := []
  inflight : List Probe := []
deriving DecidableEq, Repr

/-! ## `NewSniffer` and the classifier predicates -/

/-- The function `NewSniffer` (lines 86-117); `none` is the nil configuration. -/
def NewSniffer (config : Option SnifferConfig) : Sniffer :=
  let config := match config with
    | some c => c
    | none => { Debug := true, Headless := true, UseChrome := true, DeviceType := "mobile",
                Timeout := 30000, SnifferTimeout := 10000, HeadTimeout := 5000,
                ConcurrencyNum := 3 }
  { config := config
    urlRegex := urlRegexPattern
    urlNoHead := urlNoHeadPattern
    blockResources := ["image", "stylesheet", "font", "texttrack", "object", "beacon",
      "csp_report", "imageset", "media"] }

/-- The loop of `shouldBlockResource` over the block list. -/
def blockLoop (resourceType : String) : List String → Bool
  | [] => false
  | blockType :: rest => if resourceType = blockType then true else blockLoop resourceType rest

/-- The method `shouldBlockResource` (lines 248-255). -/
def Sniffer.shouldBlockResource (s : Sniffer) (resourceType : String) : Bool :=
  blockLoop resourceType s.blockResources

/-- The method `IsValidURL` (lines 280-283). -/
def Sniffer.IsValidURL (env : Env) (_s : Sniffer) (urlStr : String) : Bool :=
  (env.parsePath urlStr).isSome && (hasPrefix urlStr "http://" || hasPrefix urlStr "https://")

/-- The list `excludePatterns` of `IsRealURLCheck`. -/
def excludePatterns : List String :=
  ["google", "facebook", "twitter", "analytics", "doubleclick",
   ".css", ".js", ".html", ".htm", ".png", ".jpg", ".jpeg", ".gif"]

/-- The loop of `IsRealURLCheck` over the patterns. -/
def realLoop (lowerURL : String) : List String → Bool
  | [] => true
  | pattern :: rest => if contains lowerURL pattern then false else realLoop lowerURL rest

/-- The method `IsRealURLCheck` (lines 286-301). -/
def Sniffer.IsRealURLCheck (_s : Sniffer) (urlStr : String) : Bool :=
  realLoop (toLower urlStr) excludePatterns

/-- The method `CanHeadCheck` (lines 304-307). -/
def Sniffer.CanHeadCheck (s : Sniffer) (urlStr : String) : Bool :=
  !s.urlNoHead.MatchString urlStr

/-! ## The request handler of `SnifferMediaURL` (lines 361-511) -/

/-- The test `pattern != "" `, `regexp.Compile("(?mi)" + pattern)`, `err == nil` and
`MatchString(reqURL)` that guards the exclusion branch (lines 387-389) and the custom
branch (lines 396-398). -/
def userRegexMatches (env : Env) (pattern reqURL : String) : Bool :=
  pattern != "" &&
    match env.compile ("(?mi)" ++ pattern) with
    | some re => re reqURL
    | none => false

/-- The map `reqHeaders` built at lines 399-405, 427-433 and 484-490 from the headers of
the request. -/
def captureHeaders (headers : StrMap) : StrMap :=
  let reqHeaders : StrMap := []
  let reqHeaders :=
    match headers.lookup "referer" with
    | some referer => if referer != "" then reqHeaders.set "referer" referer else reqHeaders
    | none => reqHeaders
  let reqHeaders :=
    match headers.lookup "user-agent" with
    | some userAgent =>
      if userAgent != "" then reqHeaders.set "user-agent" userAgent else reqHeaders
    | none => reqHeaders
  reqHeaders

/-- The statements `realURLs = append(realURLs, ...)` and `if options.Mode == 0 { cancel() }`
that end each of the three hit branches. -/
def recordHit (options : SnifferOptions) (url : String) (headers : StrMap) (st : Session) :
    Session :=
  let st := { st with realURLs := st.realURLs ++ [{ URL := url, Headers := captureHeaders headers }] }
  if options.Mode = 0 then { st with cancelled := true } else st

/-- Index of the last occurrence of a character, scanning from position `i`. -/
def lastIndexFrom (c : Char) : List Char → Nat → Option Nat → Option Nat
  | [], _, found => found
  | d :: ds, i, found => lastIndexFrom c ds (i + 1) (if d == c then some i else found)

/-- The variable `filename` of lines 451-454: the text of `path` after its last slash, and
the empty string when `path` has no slash. -/
def filenameOf (path : String) : String :=
  match lastIndexFrom '/' path.data 0 none with
  | some idx => ⟨path.data.drop (idx + 1)⟩
  | none => ""

/-- The variable `shouldCheck` of lines 456-457; `len` counts bytes. -/
def shouldCheck (s : Sniffer) (reqURL filename : String) : Bool :=
  (filename != "" && !contains filename "." && !s.urlNoHead.MatchString reqURL) ||
    (contains filename "." && decide (filename.utf8ByteSize > 1))

/-- The ambient test of lines 424-425. -/
def ambientClean (reqURL : String) : Bool :=
  !contains reqURL "url=http" && !contains reqURL "v=http" &&
    !contains reqURL ".css" && !contains reqURL ".html"

/-- The handler that `SnifferMediaURL` adds to the hijack router (lines 361-511), as a step
on the session state that also tells what happens to the paused request. -/
def hijackHandler (env : Env) (s : Sniffer) (playURL : String) (options : SnifferOptions)
    (req : Request) (st : Session) : Session × Response :=
  let reqURL := req.URL
  let method := req.Method
  let headers := req.Headers
  let resourceType := req.ResourceType
  if s.shouldBlockResource resourceType then
    (st, Response.fail "BlockedByClient")
  else if userRegexMatches env options.SnifferExclude reqURL then
    (st, Response.continueRequest)
  else if userRegexMatches env options.CustomRegex reqURL then
    (recordHit options reqURL headers st, Response.continueRequest)
  else if s.urlRegex.MatchString reqURL && s.IsRealURLCheck reqURL then
    if ambientClean reqURL then
      (recordHit options reqURL headers st, Response.continueRequest)
    else
      (st, Response.continueRequest)
  else if toLower method == "get" && hasPrefix reqURL "http" && reqURL != playURL then
    match env.parsePath reqURL with
    | some path =>
      let filename := filenameOf path
      if shouldCheck s reqURL filename && !st.headURLs.contains reqURL && s.CanHeadCheck reqURL then
        ({ st with
            probes := st.probes ++ [{ checkURL := reqURL, headers := headers }]
            inflight := st.inflight ++ [{ checkURL := reqURL, headers := headers }]
            headURLs := reqURL :: st.headURLs },
          Response.continueRequest)
      else
        (st, Response.continueRequest)
    | none => (st, Response.continueRequest)
  else
    (st, Response.continueRequest)

/-! ## The HEAD probe (lines 460-503) -/

/-- How the HTTP exchange of a probe ends: `http.NewRequest` fails, `client.Do` fails, or a
response arrives whose `Header.Get` gives the two values. -/
inductive HeadOutcome where
  | newRequestError
  | doError
  | response (contentType contentDisposition : String)
deriving DecidableEq, Repr

/-- The body of the goroutine once its exchange has ended. -/
def probeFinish (options : SnifferOptions) (p : Probe) (o : HeadOutcome) (st : Session) :
    Session :=
  match o with
  | HeadOutcome.newRequestError => st
  | HeadOutcome.doError => st
  | HeadOutcome.response contentType contentDisposition =>
    if contentType == "application/octet-stream" &&
        contentDisposition != "" && contains contentDisposition ".m3u8" then
      recordHit options p.checkURL p.headers st
    else st

/-! ## A session as a sequence of events -/

/-- What happens while `SnifferMediaURL` runs: the page issues a request, or the exchange of
the probe of a URL ends. -/
inductive Event where
  | request (r : Request)
  | headDone (checkURL : String) (o : HeadOutcome)
deriving DecidableEq, Repr

/-- One event. -/
def stepEvent (env : Env) (s : Sniffer) (playURL : String) (options : SnifferOptions)
    (st : Session) : Event → Session
  | Event.request r => (hijackHandler env s playURL options r st).1
  | Event.headDone checkURL o =>
    match st.inflight.find? (fun p => p.checkURL == checkURL) with
    | some p => probeFinish options p o { st with inflight := st.inflight.erase p }
    | none => st

/-- The events of a session in their order, from the state of lines 330-331. -/
def runEvents (env : Env) (s : Sniffer) (playURL : String) (options : SnifferOptions)
    (events : List Event) : Session :=
  events.foldl (stepEvent env s playURL options) {}

/-! ## Pages (`GetPage`, `ClosePage`) -/

/-- What `GetPage` sets on a fresh page: the device given to `Emulate` (if any), the user
agent override and the list given to `SetExtraHeaders`. -/
structure Page where
  device : Option String
  userAgent : String
  extraHeaders : List String
deriving DecidableEq, Repr

/-- The browser behind `s.browser`: the error that `browser.Page` reports (if any), the
number of pages created and the number of pages closed. -/
structure Browser where
  pageError : Option String := none
  created : Nat := 0
  closed : Nat := 0
deriving DecidableEq, Repr

/-- The method `GetPage` (lines 183-245); `none` is the nil browser. -/
def Sniffer.GetPage (s : Sniffer) (browser : Option Browser) (headers : StrMap) :
    Except String Page × Option Browser :=
  match browser with
  | none => (Except.error "浏览器未初始化", none)
  | some b =>
    match b.pageError with
    | some err => (Except.error ("创建页面失败: " ++ err), some b)
    | none =>
      let device := if !contains s.config.DeviceType "pc" then some "iPhone X" else none
      let userAgent := s.config.UserAgent
      let userAgent :=
        if userAgent == "" then
          if contains s.config.DeviceType "pc" then
            "Mozilla/5.0 (Windows NT 10.0; Win64; x64) AppleWebKit/537.36 (KHTML, like Gecko) Chrome/120.0.0.0 Safari/537.36"
          else
            "Mozilla/5.0 (iPhone; CPU iPhone OS 17_0 like Mac OS X) AppleWebKit/605.1.15 (KHTML, like Gecko) Version/17.0 Mobile/15E148 Safari/604.1"
        else userAgent
      let headerList :=
        if headers.length > 0 then headers.flatMap (fun kv => [kv.1, kv.2]) else []
      (Except.ok { device := device, userAgent := userAgent, extraHeaders := headerList },
        some { b with created := b.created + 1 })

/-- The method `ClosePage` (lines 258-265) on the browser state. -/
def Sniffer.ClosePage (_s : Sniffer) (browser : Option Browser) : Option Browser :=
  browser.map (fun b => { b with closed := b.closed + 1 })

/-! ## `SnifferMediaURL` (lines 310-621) -/

/-- Two's complement wrap of a Go `int64`. -/
def wrapInt64 (x : Int) : Int :=
  (x + 2 ^ 63) % 2 ^ 64 - 2 ^ 63

/-- The conversion `time.Duration(ms) * time.Millisecond`, in nanoseconds. -/
def durationOfMs (ms : Int) : Int :=
  wrapInt64 (ms * 1000000)

/-- The variable `timeout` of lines 345-354, the duration given to `context.WithTimeout`. -/
def Sniffer.sessionTimeout (s : Sniffer) (options : SnifferOptions) : Int :=
  let timeout := durationOfMs options.Timeout
  if options.Mode = 1 then
    if options.Timeout > s.config.Timeout then durationOfMs s.config.Timeout else timeout
  else
    if options.Timeout > s.config.SnifferTimeout then durationOfMs s.config.SnifferTimeout
    else timeout

/-- The text `fmt.Sprintf("%d ms", ...)` of the field `Cost`. -/
def costText (elapsedMs : Int) : String :=
  toString elapsedMs ++ " ms"

/-- The result assembly of lines 588-620. -/
def assembleResult (playURL : String) (options : SnifferOptions)
    (realURLs : List URLWithHeaders) (costStr : String) : SnifferResult :=
  if h : options.Mode = 0 ∧ realURLs.length > 0 then
    { URL := (realURLs.get ⟨0, h.2⟩).URL
      Headers := some (realURLs.get ⟨0, h.2⟩).Headers
      From := playURL
      Cost := costStr
      Code := 200
      Script := options.Script
      InitScript := options.InitScript
      Msg := "超级嗅探解析成功" }
  else if options.Mode = 1 ∧ realURLs.length > 0 then
    { URLs := some realURLs
      Code := 200
      From := playURL
      Cost := costStr
      Script := options.Script
      InitScript := options.InitScript
      Msg := "超级嗅探解析成功" }
  else
    { URL := ""
      Headers := some []
      From := playURL
      Cost := costStr
      Script := options.Script
      InitScript := options.InitScript
      Code := 404
      Msg := "超级嗅探解析失败" }

/-- What a call of `SnifferMediaURL` leaves behind: its two return values, the browser
state, the page it allocated, the duration it gave to `context.WithTimeout` and the session
state at the moment the result was assembled (the last three only when the call got that
far). -/
structure Outcome where
  result : SnifferResult
  err : Option String
  browser : Option Browser
  page : Option Page := none
  timeout : Option Int := none
  session : Option Session := none
deriving DecidableEq, Repr

/-- The method `SnifferMediaURL`.  `options = none` is the nil pointer.  `events` are the
requests and probe completions that were handled before line 588 read `realURLs`;
`elapsedMs` is the reading of `time.Since(startTime).Milliseconds()` at the return. -/
def Sniffer.SnifferMediaURL (env : Env) (s : Sniffer) (browser : Option Browser)
    (playURL : String) (options : Option SnifferOptions) (events : List Event)
    (elapsedMs : Int) : Outcome :=
  let options : SnifferOptions :=
    match options with
    | some o => o
    | none => { Mode := 0, Timeout := s.config.SnifferTimeout }
  if !s.IsValidURL env playURL then
    { result := { Code := 400, Msg := "无效的 URL", From := playURL, Cost := costText elapsedMs }
      err := none
      browser := browser }
  else
    match s.GetPage browser options.Headers with
    | (Except.error err, browser) =>
      { result := { Code := 500, Msg := "创建页面失败: " ++ err, From := playURL,
                    Cost := costText elapsedMs }
        err := none
        browser := browser }
    | (Except.ok page, browser) =>
      let timeout := s.sessionTimeout options
      let st := runEvents env s playURL options events
      { result := assembleResult playURL options st.realURLs (costText elapsedMs)
        err := none
        browser := s.ClosePage browser
        page := some page
        timeout := some timeout
        session := some st }

/-! ## The vocabulary of the specification -/

/-- A caller-supplied pattern "is set and matches" a URL: it is not empty, it compiles under
the flags `(?mi)`, and the compiled expression matches the URL. -/
def SetAndMatches (env : Env) (pattern url : String) : Prop :=
  pattern ≠ "" ∧ ∃ re, env.compile ("(?mi)" ++ pattern) = some re ∧ re url = true

/-- The hit that a request gives rise to: its URL with the captured headers. -/
def hitOf (req : Request) : URLWithHeaders :=
  { URL := req.URL, Headers := captureHeaders req.Headers }

/-- The condition of the specification (steps 1-4 of its router) under which a request is
recorded as a hit. -/
def SpecRecords (env : Env) (s : Sniffer) (options : SnifferOptions) (req : Request) : Prop :=
  s.shouldBlockResource req.ResourceType = false ∧
  ¬ SetAndMatches env options.SnifferExclude req.URL ∧
  (SetAndMatches env options.CustomRegex req.URL ∨
    (s.urlRegex.MatchString req.URL = true ∧ s.IsRealURLCheck req.URL = true ∧
      contains req.URL "url=http" = false ∧ contains req.URL "v=http" = false ∧
      contains req.URL ".css" = false ∧ contains req.URL ".html" = false))

/-- The limit that the specification names for a mode: the session timeout of the
configuration in mode 1, its single-hit timeout otherwise. -/
def timeoutLimit (s : Sniffer) (options : SnifferOptions) : Int :=
  if options.Mode = 1 then s.config.Timeout else s.config.SnifferTimeout

/-- The effective timeout of the specification, in milliseconds: the timeout of the options
clamped to the limit of the mode and then to 60000. -/
def specTimeoutMs (s : Sniffer) (options : SnifferOptions) : Int :=
  min (min options.Timeout (timeoutLimit s options)) 60000

/-- Header minimality of the specification for the headers of a hit, against the headers of
the request it comes from: the only keys are `referer` and `user-agent`, no value is empty,
and each of the two keys is present exactly when the request carries a non-empty value for
it, which it then maps to. -/
def MinimalHeaders (orig captured : StrMap) : Prop :=
  (∀ k v, (k, v) ∈ captured → (k = "referer" ∨ k = "user-agent") ∧ v ≠ "") ∧
  (∀ v, captured.lookup "referer" = some v ↔ orig.lookup "referer" = some v ∧ v ≠ "") ∧
  (∀ v, captured.lookup "user-agent" = some v ↔ orig.lookup "user-agent" = some v ∧ v ≠ "")

/-- The condition under which the handler starts a HEAD probe for a request, read off the
branches of lines 370-459. -/
def Dispatches (env : Env) (s : Sniffer) (playURL : String) (options : SnifferOptions)
    (req : Request) (st : Session) : Prop :=
  s.shouldBlockResource req.ResourceType = false ∧
  userRegexMatches env options.SnifferExclude req.URL = false ∧
  userRegexMatches env options.CustomRegex req.URL = false ∧
  ¬ (s.urlRegex.MatchString req.URL = true ∧ s.IsRealURLCheck req.URL = true) ∧
  toLower req.Method = "get" ∧ hasPrefix req.URL "http" = true ∧ req.URL ≠ playURL ∧
  st.headURLs.contains req.URL = false ∧ s.urlNoHead.MatchString req.URL = false ∧
  ∃ path, env.parsePath req.URL = some path ∧
    ((filenameOf path ≠ "" ∧ contains (filenameOf path) "." = false) ∨
     (contains (filenameOf path) "." = true ∧ (filenameOf path).utf8ByteSize > 1))

/-- The session after the handler has started a probe for a request. -/
def withProbe (req : Request) (st : Session) : Session :=
  { st with
      probes := st.probes ++ [{ checkURL := req.URL, headers := req.Headers }]
      inflight := st.inflight ++ [{ checkURL := req.URL, headers := req.Headers }]
      headURLs := req.URL :: st.headURLs }

/-- The dispatch condition in the words of the specification (its section 4.2 and step 5 of
section 4.4): the method is GET, the scheme is http or https, the URL is not the input URL
of the page and is not yet probed, and the last path segment either has no dot while the
URL is not `cannotHeadProbe`, or has a dot and is longer than one character. -/
def specProbeCondition (env : Env) (s : Sniffer) (playURL : String) (req : Request)
    (st : Session) : Bool :=
  req.Method == "GET" && (hasPrefix req.URL "http://" || hasPrefix req.URL "https://") &&
    req.URL != playURL && !st.headURLs.contains req.URL &&
    match env.parsePath req.URL with
    | some path =>
      (!contains (filenameOf path) "." && !s.urlNoHead.MatchString req.URL) ||
        (contains (filenameOf path) "." && decide ((filenameOf path).length > 1))
    | none => false

/-- Every hit and every unfinished probe of a session state comes from a request among the
given events. -/
def Traced (events : List Event) (st : Session) : Prop :=
  (∀ hit ∈ st.realURLs, ∃ r, Event.request r ∈ events ∧ hit = hitOf r) ∧
  (∀ p ∈ st.inflight, ∃ r, Event.request r ∈ events ∧
    p = { checkURL := r.URL, headers := r.Headers })

/-! ## The HTTP adapter (`server.go`) -/

/-- The configuration that `initSniffer` builds (`server.go`, lines 422-426): only `Debug`,
`Headless` and `UseChrome` are set, the other fields have their zero values. -/
def adapterConfig : SnifferConfig :=
  { Debug := true, Headless := true, UseChrome := true }

/-- The timeout parsing of `handleSniffer` (`server.go`, lines 257-264); the argument is the
outcome of `strconv.Atoi(timeoutStr)`, `none` when it reports an error. -/
def parsedTimeout (atoi : Option Int) : Int :=
  match atoi with
  | some timeout => if timeout > 60000 then 60000 else timeout
  | none => 10000

/-- The mode parsing of `handleSniffer` (`server.go`, lines 267-271); the argument is the
outcome of `strconv.Atoi(modeStr)`. -/
def parsedMode (atoi : Option Int) : Int :=
  match atoi with
  | some mode => mode
  | none => 0

/-- The parsing of `is_pc` in `handleSniffer` (`server.go`, line 274). -/
def parsedIsPc (isPcStr : String) : Bool :=
  isPcStr == "1" || isPcStr == "true"

/-- Go `unicode.IsSpace`, the test of `strings.TrimSpace`. -/
def isSpace (c : Char) : Bool :=
  c == '\t' || c == '\n' || c.toNat == 11 || c.toNat == 12 || c == '\r' || c == ' ' ||
    c.toNat == 0x85 || c.toNat == 0xA0 || c.toNat == 0x1680 ||
    (0x2000 ≤ c.toNat && c.toNat ≤ 0x200A) || c.toNat == 0x2028 || c.toNat == 0x2029 ||
    c.toNat == 0x202F || c.toNat == 0x205F || c.toNat == 0x3000

/-- Go `strings.TrimSpace`. -/
def trimSpace (s : String) : String :=
  ⟨((s.data.dropWhile isSpace).reverse.dropWhile isSpace).reverse⟩

/-- The pieces of a character list between its newlines. -/
def splitLines : List Char → List (List Char)
  | [] => [[]]
  | c :: cs =>
    if c == '\n' then [] :: splitLines cs
    else
      match splitLines cs with
      | l :: ls => (c :: l) :: ls
      | [] => [[c]]

/-- The variable `lines` of `parseHeaders`: Go `strings.Split(headerStr, "\n")`. -/
def headerLines (headerStr : String) : List String :=
  (splitLines headerStr.data).map String.mk

/-- Go `strings.Index` for a one-character separator; `none` is the result -1. -/
def indexOfChar (c : Char) : List Char → Option Nat
  | [] => none
  | d :: ds => if d == c then some 0 else (indexOfChar c ds).map (fun i => i + 1)

/-- The body of the loop of `parseHeaders` (`server.go`, lines 453-460).  `lowerRune` is
`unicode.ToLower`, the case table behind `strings.ToLower`; header names may hold any
letters, so the table is a parameter here, and `toLowerRune` is an instance of it. -/
def parseHeaderLine (lowerRune : Char → Char) (headers : StrMap) (line : String) : StrMap :=
  match indexOfChar ':' line.data with
  | some colonIndex =>
    if colonIndex > 0 then
      let key := trimSpace ⟨(line.data.take colonIndex).map lowerRune⟩
      let value := trimSpace ⟨line.data.drop (colonIndex + 1)⟩
      if key != "" && value != "" then headers.set key value else headers
    else headers
  | none => headers

/-- The function `parseHeaders` (`server.go`, lines 445-464). -/
def parseHeaders (lowerRune : Char → Char) (headerStr : String) : StrMap :=
  if headerStr == "" then []
  else (headerLines headerStr).foldl (parseHeaderLine lowerRune) []

/-- The entry that the loop body of `parseHeaders` writes for a line, if it writes one. -/
def headerEntry (lowerRune : Char → Char) (line : String) : Option (String × String) :=
  match indexOfChar ':' line.data with
  | some colonIndex =>
    if colonIndex > 0 then
      if trimSpace ⟨(line.data.take colonIndex).map lowerRune⟩ != "" &&
          trimSpace ⟨line.data.drop (colonIndex + 1)⟩ != "" then
        some (trimSpace ⟨(line.data.take colonIndex).map lowerRune⟩,
          trimSpace ⟨line.data.drop (colonIndex + 1)⟩)
      else none
    else none
  | none => none

/-- A line gives an entry, in the words of the specification: the line contains a colon,
`name` is the text before its first colon and `rest` the text after it, the key is the
lower-cased name and the value the rest, both trimmed, and neither is empty. -/
def LineGives (lowerRune : Char → Char) (line key value : String) : Prop :=
  ∃ name rest : List Char, line.data = name ++ ':' :: rest ∧ ':' ∉ name ∧
    key = trimSpace ⟨name.map lowerRune⟩ ∧ value = trimSpace ⟨rest⟩ ∧ key ≠ "" ∧ value ≠ ""

/-! ## An instance of the library parameters for plain inputs -/

/-- The text of a pattern without metacharacters: letters, digits and a few punctuation
marks stand for themselves, and a backslash may precede a punctuation mark.  Small letters
are returned, as the flag `i` compares without case. -/
def plainPatternText : List Char → Option (List Char)
  | [] => some []
  | [c] =>
    if c.isAlphanum || c == '/' || c == ':' || c == '-' || c == '_' || c == '=' || c == '&'
    then some [toLowerRune c] else none
  | c :: d :: cs =>
    if c == Char.ofNat 92 then
      if d == '.' || d == '/' || d == '?' || d == '-' then
        (plainPatternText cs).map (fun t => d :: t)
      else none
    else if c.isAlphanum || c == '/' || c == ':' || c == '-' || c == '_' || c == '=' || c == '&'
    then (plainPatternText (d :: cs)).map (fun t => toLowerRune c :: t)
    else none

/-- An instance of `regexp.Compile` for the patterns `(?mi)` followed by plain text; it
knows no other pattern. -/
def plainCompile (pattern : String) : Option (String → Bool) :=
  if hasPrefix pattern "(?mi)" then
    (plainPatternText (pattern.data.drop 5)).map
      (fun t => fun url => (Regex.litFold ⟨t⟩).MatchString url)
  else none

/-- An instance of `url.Parse` for the URLs `scheme://host/path?query#fragment` written in
printable ASCII without `%`, with a host of letters, digits, dots and hyphens: the field
`Path` is the text from the first slash after the host up to the query or fragment.  It
knows no other URL. -/
def plainParsePath (u : String) : Option String :=
  let scheme := u.data.takeWhile Char.isAlpha
  match u.data.dropWhile Char.isAlpha with
  | ':' :: '/' :: '/' :: rest =>
    let noFragment := rest.takeWhile (fun c => c != '#')
    let noQuery := noFragment.takeWhile (fun c => c != '?')
    let host := noQuery.takeWhile (fun c => c != '/')
    let path := noQuery.dropWhile (fun c => c != '/')
    if !scheme.isEmpty && !host.isEmpty &&
        u.data.all (fun c => decide (33 ≤ c.toNat ∧ c.toNat ≤ 126) && c != '%') &&
        host.all (fun c => c.isAlphanum || c == '.' || c == '-')
    then some ⟨path⟩ else none
  | _ => none

/-- The library instance used for evaluating the model on plain inputs. -/
def plainEnv : Env :=
  { compile := plainCompile, parsePath := plainParsePath }

/-! ## Lemmas on the handler -/

theorem userRegexMatches_iff (env : Env) (pattern url : String) :
    userRegexMatches env pattern url = true ↔ SetAndMatches env pattern url := by
  unfold userRegexMatches SetAndMatches
  cases hc : env.compile ("(?mi)" ++ pattern) with
  | none => simp
  | some re => simp

theorem recordHit_realURLs (options : SnifferOptions) (url : String) (headers : StrMap)
    (st : Session) :
    (recordHit options url headers st).realURLs =
      st.realURLs ++ [{ URL := url, Headers := captureHeaders headers }] := by
  unfold recordHit
  split <;> rfl

theorem recordHit_probes (options : SnifferOptions) (url : String) (headers : StrMap)
    (st : Session) :
    (recordHit options url headers st).probes = st.probes ∧
    (recordHit options url headers st).inflight = st.inflight ∧
    (recordHit options url headers st).headURLs = st.headURLs := by
  unfold recordHit
  split <;> exact ⟨rfl, rfl, rfl⟩

theorem ambientClean_iff (u : String) :
    ambientClean u = true ↔
      contains u "url=http" = false ∧ contains u "v=http" = false ∧
      contains u ".css" = false ∧ contains u ".html" = false := by
  unfold ambientClean
  simp [and_assoc]

/-- The hit list after the handler, by cases on the branch the request takes. -/
theorem hijackHandler_realURLs_cases (env : Env) (s : Sniffer) (playURL : String)
    (options : SnifferOptions) (req : Request) (st : Session) :
    (hijackHandler env s playURL options req st).1.realURLs =
      if s.shouldBlockResource req.ResourceType = false ∧
          userRegexMatches env options.SnifferExclude req.URL = false ∧
          (userRegexMatches env options.CustomRegex req.URL = true ∨
            (s.urlRegex.MatchString req.URL = true ∧ s.IsRealURLCheck req.URL = true ∧
              ambientClean req.URL = true))
      then st.realURLs ++ [hitOf req] else st.realURLs := by
  unfold hijackHandler hitOf
  dsimp only
  split
  · rename_i hb
    rw [if_neg (by rw [hb]; simp)]
  · rename_i hb
    split
    · rename_i he
      rw [if_neg (by rw [he]; simp)]
    · rename_i he
      split
      · rename_i hc
        rw [if_pos ⟨by simpa using hb, by simpa using he, Or.inl hc⟩, recordHit_realURLs]
      · rename_i hc
        split
        · rename_i hd
          rw [Bool.and_eq_true] at hd
          split
          · rename_i ha
            rw [if_pos ⟨by simpa using hb, by simpa using he, Or.inr ⟨hd.1, hd.2, ha⟩⟩,
              recordHit_realURLs]
          · rename_i ha
            rw [if_neg]
            rintro ⟨_, _, h | h⟩
            · exact hc h
            · exact ha h.2.2
        · rename_i hd
          rw [Bool.and_eq_true] at hd
          have hno : ¬ (s.shouldBlockResource req.ResourceType = false ∧
              userRegexMatches env options.SnifferExclude req.URL = false ∧
              (userRegexMatches env options.CustomRegex req.URL = true ∨
                (s.urlRegex.MatchString req.URL = true ∧ s.IsRealURLCheck req.URL = true ∧
                  ambientClean req.URL = true))) := by
            rintro ⟨_, _, h | h⟩
            · exact hc h
            · exact hd ⟨h.1, h.2.1⟩
          rw [if_neg hno]
          split
          · split
            · split <;> rfl
            · rfl
          · rfl

theorem specRecords_iff (env : Env) (s : Sniffer) (options : SnifferOptions) (req : Request) :
    SpecRecords env s options req ↔
      (s.shouldBlockResource req.ResourceType = false ∧
        userRegexMatches env options.SnifferExclude req.URL = false ∧
        (userRegexMatches env options.CustomRegex req.URL = true ∨
          (s.urlRegex.MatchString req.URL = true ∧ s.IsRealURLCheck req.URL = true ∧
            ambientClean req.URL = true))) := by
  unfold SpecRecords
  rw [← userRegexMatches_iff, ← userRegexMatches_iff, ambientClean_iff, Bool.not_eq_true]

theorem append_singleton_ne {α : Type} (l : List α) (a : α) : l ++ [a] ≠ l := by
  intro h
  have hlen := congrArg List.length h
  simp at hlen

/-- Claim C1.  For every request handled by the router with hit list `L`: the handler
turns `L` into `L ++ [hit of the request]` exactly when the resource type is not blocked,
`snifferExclude` does not match the URL, and either `customRegex` is set and matches it, or
the default pattern matches it, `IsRealURLCheck` accepts it and it contains none of
`url=http`, `v=http`, `.css`, `.html`; in every other case the hit list stays `L`. -/
theorem handler_records_hit_iff (env : Env) (s : Sniffer) (playURL : String)
    (options : SnifferOptions) (req : Request) (st : Session) :
    (hitOf req).URL = req.URL ∧
    ((hijackHandler env s playURL options req st).1.realURLs = st.realURLs ++ [hitOf req] ↔
      SpecRecords env s options req) ∧
    ((hijackHandler env s playURL options req st).1.realURLs = st.realURLs ↔
      ¬ SpecRecords env s options req) := by
  refine ⟨rfl, ?_, ?_⟩
  · rw [hijackHandler_realURLs_cases, specRecords_iff]
    constructor
    · intro h
      by_contra hn
      rw [if_neg hn] at h
      exact append_singleton_ne _ _ h.symm
    · intro h
      rw [if_pos h]
  · rw [hijackHandler_realURLs_cases, specRecords_iff]
    constructor
    · intro h hn
      rw [if_pos hn] at h
      exact append_singleton_ne _ _ h
    · intro h
      rw [if_neg h]

/-- Claim C1 at a request for an HLS manifest: the default classification records it, with
the referer of the request. -/
theorem handler_records_hit_iff_witness :
    (hijackHandler plainEnv (NewSniffer none) "https://site.example/play" {}
      { URL := "https://cdn.site.example/stream/abc.m3u8?t=1", ResourceType := "XHR",
        Headers := [("referer", "https://site.example/play")] } {}).1.realURLs =
      [{ URL := "https://cdn.site.example/stream/abc.m3u8?t=1",
         Headers := [("referer", "https://site.example/play")] }] :=
  (handler_records_hit_iff plainEnv (NewSniffer none) "https://site.example/play" {}
      { URL := "https://cdn.site.example/stream/abc.m3u8?t=1", ResourceType := "XHR",
        Headers := [("referer", "https://site.example/play")] } {}).2.1.2
    ⟨by decide, fun h => h.1 rfl, Or.inr ⟨by decide, by decide, by decide, by decide,
      by decide, by decide⟩⟩

/-- Claim C2.  Exclusion dominates: when the resource type of a request is not blocked and
`snifferExclude` is set and matches its URL, the handler changes nothing in the session
(no hit is recorded, no probe is started, `cancel` is not called) and continues the
request, whatever `customRegex` and the default classification say about that URL. -/
theorem exclusion_dominates (env : Env) (s : Sniffer) (playURL : String)
    (options : SnifferOptions) (req : Request) (st : Session)
    (hb : s.shouldBlockResource req.ResourceType = false)
    (he : SetAndMatches env options.SnifferExclude req.URL) :
    hijackHandler env s playURL options req st = (st, Response.continueRequest) := by
  have he2 := (userRegexMatches_iff env options.SnifferExclude req.URL).2 he
  unfold hijackHandler
  dsimp only
  rw [if_neg (by rw [hb]; simp), if_pos he2]

/-- Claim C2 at a request that `customRegex` and the default pattern both match. -/
theorem exclusion_dominates_witness :
    SetAndMatches plainEnv "mp4" "https://ads.example/media/a.mp4" ∧
    (NewSniffer none).urlRegex.MatchString "https://ads.example/media/a.mp4" = true ∧
    hijackHandler plainEnv (NewSniffer none) "https://site.example/play"
      { Mode := 1, SnifferExclude := "ads\\.example", CustomRegex := "mp4" }
      { URL := "https://ads.example/media/a.mp4", ResourceType := "Media" } {} =
      ({}, Response.continueRequest) :=
  ⟨⟨by decide, _, rfl, by decide⟩, by decide,
    exclusion_dominates plainEnv (NewSniffer none) "https://site.example/play"
      { Mode := 1, SnifferExclude := "ads\\.example", CustomRegex := "mp4" }
      { URL := "https://ads.example/media/a.mp4", ResourceType := "Media" } {}
      (by decide) ⟨by decide, _, rfl, by decide⟩⟩

/-! ## Result assembly -/

theorem snifferMediaURL_allocated (env : Env) (s : Sniffer) (b : Browser) (playURL : String)
    (options : SnifferOptions) (events : List Event) (elapsedMs : Int)
    (hv : s.IsValidURL env playURL = true) (hp : b.pageError = none) :
    (s.SnifferMediaURL env (some b) playURL (some options) events elapsedMs).result =
        assembleResult playURL options (runEvents env s playURL options events).realURLs
          (costText elapsedMs) ∧
    (s.SnifferMediaURL env (some b) playURL (some options) events elapsedMs).session =
        some (runEvents env s playURL options events) ∧
    (s.SnifferMediaURL env (some b) playURL (some options) events elapsedMs).timeout =
        some (s.sessionTimeout options) := by
  unfold Sniffer.SnifferMediaURL Sniffer.GetPage
  simp only [hv, hp]
  exact ⟨rfl, rfl, rfl⟩

/-- Claim C3.  Mode-0 result assembly: for a valid `playURL` whose page was allocated and
`options.Mode = 0`, with `L` the hit list at the end of the session: if `L` is not empty
the result has code 200, the URL and the headers of the first hit of `L` (whatever follows
it) and no `urls`; if `L` is empty the result has code 404, the empty URL and no `urls`. -/
theorem mode0_result (env : Env) (s : Sniffer) (b : Browser) (playURL : String)
    (options : SnifferOptions) (events : List Event) (elapsedMs : Int)
    (hv : s.IsValidURL env playURL = true) (hp : b.pageError = none)
    (hm : options.Mode = 0) :
    (∀ first rest, (runEvents env s playURL options events).realURLs = first :: rest →
      (s.SnifferMediaURL env (some b) playURL (some options) events elapsedMs).result.Code = 200 ∧
      (s.SnifferMediaURL env (some b) playURL (some options) events elapsedMs).result.URL =
        first.URL ∧
      (s.SnifferMediaURL env (some b) playURL (some options) events elapsedMs).result.Headers =
        some first.Headers ∧
      (s.SnifferMediaURL env (some b) playURL (some options) events elapsedMs).result.URLs =
        none) ∧
    ((runEvents env s playURL options events).realURLs = [] →
      (s.SnifferMediaURL env (some b) playURL (some options) events elapsedMs).result.Code = 404 ∧
      (s.SnifferMediaURL env (some b) playURL (some options) events elapsedMs).result.URL = "" ∧
      (s.SnifferMediaURL env (some b) playURL (some options) events elapsedMs).result.URLs =
        none) := by
  rw [(snifferMediaURL_allocated env s b playURL options events elapsedMs hv hp).1]
  constructor
  · intro first rest hL
    rw [hL]
    unfold assembleResult
    rw [dif_pos ⟨hm, by simp⟩]
    exact ⟨rfl, rfl, rfl, rfl⟩
  · intro hL
    rw [hL]
    unfold assembleResult
    rw [dif_neg (by simp), if_neg (by simp)]
    exact ⟨rfl, rfl, rfl⟩

/-- Claim C3 on a session of two media requests in mode 0: the result carries the first. -/
theorem mode0_result_witness :
    (Sniffer.SnifferMediaURL plainEnv (NewSniffer none) (some {}) "https://site.example/play"
      (some { Mode := 0, Timeout := 5000 })
      [Event.request { URL := "https://cdn.site.example/stream/abc.m3u8?t=1",
                       Headers := [("user-agent", "UA/1.0")] },
       Event.request { URL := "https://cdn.site.example/stream/other.mp4" }] 230).result.Code
      = 200 ∧
    (Sniffer.SnifferMediaURL plainEnv (NewSniffer none) (some {}) "https://site.example/play"
      (some { Mode := 0, Timeout := 5000 })
      [Event.request { URL := "https://cdn.site.example/stream/abc.m3u8?t=1",
                       Headers := [("user-agent", "UA/1.0")] },
       Event.request { URL := "https://cdn.site.example/stream/other.mp4" }] 230).result.URL
      = "https://cdn.site.example/stream/abc.m3u8?t=1" :=
  have h := (mode0_result plainEnv (NewSniffer none) {} "https://site.example/play"
      { Mode := 0, Timeout := 5000 }
      [Event.request { URL := "https://cdn.site.example/stream/abc.m3u8?t=1",
                       Headers := [("user-agent", "UA/1.0")] },
       Event.request { URL := "https://cdn.site.example/stream/other.mp4" }] 230
      (by decide) rfl rfl).1
      { URL := "https://cdn.site.example/stream/abc.m3u8?t=1",
        Headers := [("user-agent", "UA/1.0")] }
      [{ URL := "https://cdn.site.example/stream/other.mp4", Headers := [] }] (by decide)
  ⟨h.1, h.2.1⟩

/-- Claim C4.  Mode-1 result assembly: for a valid `playURL` whose page was allocated and
`options.Mode = 1`, with `L` the hit list at the end of the session: if `L` is not empty
the result has code 200 and `urls` is the whole of `L` in its order; if `L` is empty the
result has code 404 and no `urls`. -/
theorem mode1_result (env : Env) (s : Sniffer) (b : Browser) (playURL : String)
    (options : SnifferOptions) (events : List Event) (elapsedMs : Int)
    (hv : s.IsValidURL env playURL = true) (hp : b.pageError = none)
    (hm : options.Mode = 1) :
    ((runEvents env s playURL options events).realURLs ≠ [] →
      (s.SnifferMediaURL env (some b) playURL (some options) events elapsedMs).result.Code = 200 ∧
      (s.SnifferMediaURL env (some b) playURL (some options) events elapsedMs).result.URLs =
        some (runEvents env s playURL options events).realURLs) ∧
    ((runEvents env s playURL options events).realURLs = [] →
      (s.SnifferMediaURL env (some b) playURL (some options) events elapsedMs).result.Code = 404 ∧
      (s.SnifferMediaURL env (some b) playURL (some options) events elapsedMs).result.URLs =
        none) := by
  rw [(snifferMediaURL_allocated env s b playURL options events elapsedMs hv hp).1]
  constructor
  · intro hL
    have hlen : (runEvents env s playURL options events).realURLs.length > 0 :=
      List.length_pos.2 hL
    unfold assembleResult
    rw [dif_neg (by rw [hm]; simp), if_pos ⟨hm, hlen⟩]
    exact ⟨rfl, rfl⟩
  · intro hL
    rw [hL]
    unfold assembleResult
    rw [dif_neg (by simp), if_neg (by simp)]
    exact ⟨rfl, rfl⟩

/-- Claim C4 on a session in mode 1 with a blocked image request between two media
requests: `urls` lists the two hits in the order of their requests. -/
theorem mode1_result_witness :
    (Sniffer.SnifferMediaURL plainEnv (NewSniffer none) (some {}) "https://site.example/play"
      (some { Mode := 1, Timeout := 2000 })
      [Event.request { URL := "https://cdn.site.example/stream/abc.m3u8?t=1" },
       Event.request { URL := "https://cdn.site.example/img/poster.mp4", ResourceType := "image" },
       Event.request { URL := "https://cdn.site.example/stream/other.mp4" }] 2003).result.URLs =
      some [{ URL := "https://cdn.site.example/stream/abc.m3u8?t=1", Headers := [] },
            { URL := "https://cdn.site.example/stream/other.mp4", Headers := [] }] :=
  ((mode1_result plainEnv (NewSniffer none) {} "https://site.example/play"
      { Mode := 1, Timeout := 2000 }
      [Event.request { URL := "https://cdn.site.example/stream/abc.m3u8?t=1" },
       Event.request { URL := "https://cdn.site.example/img/poster.mp4", ResourceType := "image" },
       Event.request { URL := "https://cdn.site.example/stream/other.mp4" }] 2003
      (by decide) rfl rfl).1 (by decide)).2.trans (congrArg some (by decide))

/-! ## The timeout -/

theorem sessionTimeout_eq (s : Sniffer) (options : SnifferOptions) :
    s.sessionTimeout options = durationOfMs (min options.Timeout (timeoutLimit s options)) := by
  unfold Sniffer.sessionTimeout timeoutLimit
  dsimp only
  by_cases hm : options.Mode = 1
  · rw [if_pos hm, if_pos hm]
    by_cases h : options.Timeout > s.config.Timeout
    · rw [if_pos h, min_eq_right (le_of_lt h)]
    · rw [if_neg h, min_eq_left (not_lt.1 h)]
  · rw [if_neg hm, if_neg hm]
    by_cases h : options.Timeout > s.config.SnifferTimeout
    · rw [if_pos h, min_eq_right (le_of_lt h)]
    · rw [if_neg h, min_eq_left (not_lt.1 h)]

theorem durationOfMs_fit (ms : Int) (hlo : -9223372036854 ≤ ms) (hhi : ms ≤ 9223372036854) :
    durationOfMs ms = ms * 1000000 := by
  unfold durationOfMs wrapInt64
  have h1 : (0 : Int) ≤ ms * 1000000 + 2 ^ 63 := by norm_num; omega
  have h2 : ms * 1000000 + 2 ^ 63 < 2 ^ 64 := by norm_num; omega
  rw [Int.emod_eq_of_lt h1 h2]
  ring

/-- Claim C5, refuted as stated: with a session timeout of 100000 ms in the configuration,
mode 1 and `options.Timeout = 70000`, the duration given to `context.WithTimeout` is
70000 ms, not the 60000 ms of the specification. -/
theorem timeout_exceeds_sixty_seconds :
    (NewSniffer (some { Timeout := 100000, SnifferTimeout := 100000 })).sessionTimeout
        { Mode := 1, Timeout := 70000 } = 70000 * 1000000 ∧
    specTimeoutMs (NewSniffer (some { Timeout := 100000, SnifferTimeout := 100000 }))
        { Mode := 1, Timeout := 70000 } = 60000 ∧
    (Sniffer.SnifferMediaURL plainEnv
        (NewSniffer (some { Timeout := 100000, SnifferTimeout := 100000 })) (some {})
        "https://site.example/play" (some { Mode := 1, Timeout := 70000 }) [] 70001).timeout =
      some (70000 * 1000000) ∧
    (NewSniffer (some { Timeout := 100000, SnifferTimeout := 100000 })).sessionTimeout
        { Mode := 1, Timeout := 70000 } ≠
      durationOfMs (specTimeoutMs
        (NewSniffer (some { Timeout := 100000, SnifferTimeout := 100000 }))
        { Mode := 1, Timeout := 70000 }) ∧
    (NewSniffer (some { Timeout := 100000, SnifferTimeout := 100000 })).sessionTimeout
        { Mode := 1, Timeout := 70000 } > 60000 * 1000000 := by
  decide

/-- Claim C5, amended.  The duration that `SnifferMediaURL` gives to `context.WithTimeout`
is `min(options.Timeout, limit)` milliseconds, where `limit` is `config.Timeout` in mode 1
and `config.SnifferTimeout` otherwise (for values whose nanoseconds fit an `int64`); no
ceiling of 60000 is applied, and the duration is at most 60000 ms when `options.Timeout` is
at most 60000 or the limit is. -/
theorem timeout_is_min_of_option_and_limit (s : Sniffer) (options : SnifferOptions)
    (hlo : -9223372036854 ≤ min options.Timeout (timeoutLimit s options))
    (hhi : min options.Timeout (timeoutLimit s options) ≤ 9223372036854) :
    s.sessionTimeout options = min options.Timeout (timeoutLimit s options) * 1000000 ∧
    (options.Timeout ≤ 60000 ∨ timeoutLimit s options ≤ 60000 →
      s.sessionTimeout options ≤ 60000 * 1000000) := by
  have h := sessionTimeout_eq s options
  rw [durationOfMs_fit _ hlo hhi] at h
  refine ⟨h, ?_⟩
  intro hle
  rw [h]
  have hmin : min options.Timeout (timeoutLimit s options) ≤ 60000 := by
    rcases hle with hle | hle
    · exact le_trans (min_le_left _ _) hle
    · exact le_trans (min_le_right _ _) hle
  omega

/-- Claim C5, amended, with the default configuration in mode 0: a timeout of 70000 ms in
the options is cut to the single-hit timeout of 10000 ms. -/
theorem timeout_is_min_of_option_and_limit_witness :
    (NewSniffer none).sessionTimeout { Mode := 0, Timeout := 70000 } = 10000 * 1000000 :=
  (timeout_is_min_of_option_and_limit (NewSniffer none) { Mode := 0, Timeout := 70000 }
    (by decide) (by decide)).1.trans (by decide)

/-! ## The resource block list -/

theorem hijackHandler_response (env : Env) (s : Sniffer) (playURL : String)
    (options : SnifferOptions) (req : Request) (st : Session) :
    (hijackHandler env s playURL options req st).2 =
      if s.shouldBlockResource req.ResourceType = true then Response.fail "BlockedByClient"
      else Response.continueRequest := by
  unfold hijackHandler
  dsimp only
  split
  · rfl
  · split
    · rfl
    · split
      · rfl
      · split
        · split <;> rfl
        · split
          · split
            · split <;> rfl
            · rfl
          · rfl

theorem hijackHandler_blocked (env : Env) (s : Sniffer) (playURL : String)
    (options : SnifferOptions) (req : Request) (st : Session)
    (hb : s.shouldBlockResource req.ResourceType = true) :
    hijackHandler env s playURL options req st = (st, Response.fail "BlockedByClient") := by
  unfold hijackHandler
  dsimp only
  rw [if_pos hb]

theorem blockLoop_iff (t : String) (l : List String) : blockLoop t l = true ↔ t ∈ l := by
  induction l with
  | nil => simp [blockLoop]
  | cons b rest ih =>
    unfold blockLoop
    by_cases h : t = b
    · simp [h]
    · simp [h, ih]

/-- Claim C6.  Resource block list: with the sniffer that `NewSniffer` builds, a request
whose resource type is one of `image`, `stylesheet`, `font`, `texttrack`, `object`,
`beacon`, `csp_report`, `imageset`, `media` is failed with `BlockedByClient` and leaves the
session as it was (no hit, no probe), whatever its URL; a request of any other resource
type string is continued, never failed. -/
theorem blocklist_fails_exactly_listed_types (env : Env) (config : Option SnifferConfig)
    (playURL : String) (options : SnifferOptions) (req : Request) (st : Session) :
    (req.ResourceType ∈ ["image", "stylesheet", "font", "texttrack", "object", "beacon",
        "csp_report", "imageset", "media"] →
      hijackHandler env (NewSniffer config) playURL options req st =
        (st, Response.fail "BlockedByClient")) ∧
    (req.ResourceType ∉ ["image", "stylesheet", "font", "texttrack", "object", "beacon",
        "csp_report", "imageset", "media"] →
      (hijackHandler env (NewSniffer config) playURL options req st).2 =
        Response.continueRequest) := by
  have hiff : (NewSniffer config).shouldBlockResource req.ResourceType = true ↔
      req.ResourceType ∈ ["image", "stylesheet", "font", "texttrack", "object", "beacon",
        "csp_report", "imageset", "media"] := by
    unfold Sniffer.shouldBlockResource
    rw [blockLoop_iff]
    rfl
  constructor
  · intro h
    exact hijackHandler_blocked env _ playURL options req st (hiff.2 h)
  · intro h
    rw [hijackHandler_response, if_neg (fun hb => h (hiff.1 hb))]

/-- Claim C6 at two requests for the same media URL: type `image` is failed and records
nothing, type `Image` is another string and is continued. -/
theorem blocklist_fails_exactly_listed_types_witness :
    hijackHandler plainEnv (NewSniffer none) "https://site.example/play" {}
      { URL := "https://cdn.site.example/stream/abc.m3u8", ResourceType := "image" } {} =
      ({}, Response.fail "BlockedByClient") ∧
    (hijackHandler plainEnv (NewSniffer none) "https://site.example/play" {}
      { URL := "https://cdn.site.example/stream/abc.m3u8", ResourceType := "Image" } {}).2 =
      Response.continueRequest :=
  ⟨(blocklist_fails_exactly_listed_types plainEnv none "https://site.example/play" {}
      { URL := "https://cdn.site.example/stream/abc.m3u8", ResourceType := "image" } {}).1
      (by decide),
   (blocklist_fails_exactly_listed_types plainEnv none "https://site.example/play" {}
      { URL := "https://cdn.site.example/stream/abc.m3u8", ResourceType := "Image" } {}).2
      (by decide)⟩

/-! ## Captured headers -/

theorem captureHeaders_minimal (headers : StrMap) :
    MinimalHeaders headers (captureHeaders headers) := by
  have hne : ("referer" == "user-agent") = false := by decide
  have hne2 : ("user-agent" == "referer") = false := by decide
  unfold MinimalHeaders captureHeaders StrMap.set
  cases h1 : headers.lookup "referer" with
  | none =>
    cases h2 : headers.lookup "user-agent" with
    | none => simp
    | some ua =>
      by_cases e2 : ua = ""
      · simp [e2]
      · simp [e2, List.lookup, hne, hne2]
  | some rf =>
    cases h2 : headers.lookup "user-agent" with
    | none =>
      by_cases e1 : rf = ""
      · simp [e1]
      · simp [e1, List.lookup, hne, hne2]
    | some ua =>
      by_cases e1 : rf = "" <;> by_cases e2 : ua = ""
      · simp [e1, e2]
      · simp [e1, e2, List.lookup, hne, hne2]
      · simp [e1, e2, List.lookup, hne, hne2]
      · simp [e1, e2, List.lookup, hne, hne2]
        rintro k v (⟨hk, hv⟩ | ⟨hk, hv⟩)
        · exact ⟨Or.inl hk, hv ▸ e1⟩
        · exact ⟨Or.inr hk, hv ▸ e2⟩

theorem dispatch_guard_iff (s : Sniffer) (reqURL filename : String) (st : Session) :
    (shouldCheck s reqURL filename && !st.headURLs.contains reqURL && s.CanHeadCheck reqURL) = true ↔
      (st.headURLs.contains reqURL = false ∧ s.urlNoHead.MatchString reqURL = false ∧
        ((filename ≠ "" ∧ contains filename "." = false) ∨
         (contains filename "." = true ∧ filename.utf8ByteSize > 1))) := by
  unfold shouldCheck Sniffer.CanHeadCheck
  cases h1 : st.headURLs.contains reqURL <;> cases h2 : s.urlNoHead.MatchString reqURL <;>
    cases h3 : contains filename "." <;> simp

/-- The handler starts a probe exactly under `Dispatches`, and then marks the URL as
probed; otherwise it leaves the probes and the probed set as they were. -/
theorem hijackHandler_dispatch (env : Env) (s : Sniffer) (playURL : String)
    (options : SnifferOptions) (req : Request) (st : Session) :
    (Dispatches env s playURL options req st →
      (hijackHandler env s playURL options req st).1 = withProbe req st) ∧
    (¬ Dispatches env s playURL options req st →
      (hijackHandler env s playURL options req st).1.probes = st.probes ∧
      (hijackHandler env s playURL options req st).1.inflight = st.inflight ∧
      (hijackHandler env s playURL options req st).1.headURLs = st.headURLs) := by
  unfold hijackHandler Dispatches withProbe
  dsimp only
  split
  · rename_i hb
    exact ⟨fun h => by rw [h.1] at hb; exact absurd hb (by simp), fun _ => ⟨rfl, rfl, rfl⟩⟩
  · rename_i hb
    split
    · rename_i he
      exact ⟨fun h => by rw [h.2.1] at he; exact absurd he (by simp), fun _ => ⟨rfl, rfl, rfl⟩⟩
    · rename_i he
      split
      · rename_i hc
        exact ⟨fun h => by rw [h.2.2.1] at hc; exact absurd hc (by simp),
          fun _ => recordHit_probes _ _ _ _⟩
      · rename_i hc
        split
        · rename_i hd
          rw [Bool.and_eq_true] at hd
          refine ⟨fun h => absurd hd h.2.2.2.1, fun _ => ?_⟩
          split
          · exact recordHit_probes _ _ _ _
          · exact ⟨rfl, rfl, rfl⟩
        · rename_i hd
          rw [Bool.and_eq_true] at hd
          split
          · rename_i hg
            simp only [Bool.and_eq_true, beq_iff_eq, bne_iff_ne, ne_eq] at hg
            split
            · rename_i path hpath
              split
              · rename_i hk
                rw [dispatch_guard_iff] at hk
                refine ⟨fun _ => rfl, fun hn => absurd ?_ hn⟩
                exact ⟨by simpa using hb, by simpa using he, by simpa using hc, hd, hg.1.1,
                  hg.1.2, hg.2, hk.1, hk.2.1, path, hpath, hk.2.2⟩
              · rename_i hk
                rw [dispatch_guard_iff] at hk
                refine ⟨fun h => absurd ?_ hk, fun _ => ⟨rfl, rfl, rfl⟩⟩
                obtain ⟨_, _, _, _, _, _, _, h8, h9, p, hp, hf⟩ := h
                rw [hpath] at hp
                cases hp
                exact ⟨h8, h9, hf⟩
            · rename_i hpath
              refine ⟨fun h => ?_, fun _ => ⟨rfl, rfl, rfl⟩⟩
              obtain ⟨_, _, _, _, _, _, _, _, _, p, hp, _⟩ := h
              rw [hpath] at hp
              cases hp
          · rename_i hg
            simp only [Bool.and_eq_true, beq_iff_eq, bne_iff_ne, ne_eq] at hg
            refine ⟨fun h => absurd ⟨⟨h.2.2.2.2.1, h.2.2.2.2.2.1⟩, h.2.2.2.2.2.2.1⟩ hg,
              fun _ => ⟨rfl, rfl, rfl⟩⟩

theorem probeFinish_realURLs (options : SnifferOptions) (p : Probe) (o : HeadOutcome)
    (st : Session) :
    (probeFinish options p o st).realURLs = st.realURLs ∨
    (probeFinish options p o st).realURLs =
      st.realURLs ++ [{ URL := p.checkURL, Headers := captureHeaders p.headers }] := by
  unfold probeFinish
  cases o with
  | newRequestError => exact Or.inl rfl
  | doError => exact Or.inl rfl
  | response c d =>
    dsimp only
    split
    · exact Or.inr (recordHit_realURLs _ _ _ _)
    · exact Or.inl rfl

theorem probeFinish_probes (options : SnifferOptions) (p : Probe) (o : HeadOutcome)
    (st : Session) :
    (probeFinish options p o st).probes = st.probes ∧
    (probeFinish options p o st).inflight = st.inflight ∧
    (probeFinish options p o st).headURLs = st.headURLs := by
  unfold probeFinish
  cases o with
  | newRequestError => exact ⟨rfl, rfl, rfl⟩
  | doError => exact ⟨rfl, rfl, rfl⟩
  | response c d =>
    dsimp only
    split
    · exact recordHit_probes _ _ _ _
    · exact ⟨rfl, rfl, rfl⟩

theorem hijackHandler_realURLs_or (env : Env) (s : Sniffer) (playURL : String)
    (options : SnifferOptions) (req : Request) (st : Session) :
    (hijackHandler env s playURL options req st).1.realURLs = st.realURLs ∨
    (hijackHandler env s playURL options req st).1.realURLs = st.realURLs ++ [hitOf req] := by
  rw [hijackHandler_realURLs_cases]
  split
  · exact Or.inr rfl
  · exact Or.inl rfl

theorem hijackHandler_inflight_or (env : Env) (s : Sniffer) (playURL : String)
    (options : SnifferOptions) (req : Request) (st : Session) :
    (hijackHandler env s playURL options req st).1.inflight = st.inflight ∨
    (hijackHandler env s playURL options req st).1.inflight =
      st.inflight ++ [{ checkURL := req.URL, headers := req.Headers }] := by
  by_cases hd : Dispatches env s playURL options req st
  · rw [(hijackHandler_dispatch env s playURL options req st).1 hd]
    exact Or.inr rfl
  · exact Or.inl ((hijackHandler_dispatch env s playURL options req st).2 hd).2.1

theorem traced_step (env : Env) (s : Sniffer) (playURL : String) (options : SnifferOptions)
    (events : List Event) (st : Session) (e : Event) (h : Traced events st) :
    Traced (events ++ [e]) (stepEvent env s playURL options st e) := by
  obtain ⟨hhits, hprobes⟩ := h
  have old_hit : ∀ hit ∈ st.realURLs, ∃ r, Event.request r ∈ events ++ [e] ∧ hit = hitOf r := by
    intro hit hmem
    obtain ⟨r, hr, heq⟩ := hhits hit hmem
    exact ⟨r, List.mem_append_left _ hr, heq⟩
  have old_probe : ∀ p ∈ st.inflight, ∃ r, Event.request r ∈ events ++ [e] ∧
      p = { checkURL := r.URL, headers := r.Headers } := by
    intro p hmem
    obtain ⟨r, hr, heq⟩ := hprobes p hmem
    exact ⟨r, List.mem_append_left _ hr, heq⟩
  cases e with
  | request r =>
    unfold stepEvent
    constructor
    · intro hit hmem
      rcases hijackHandler_realURLs_or env s playURL options r st with h1 | h1
      · rw [h1] at hmem
        exact old_hit hit hmem
      · rw [h1, List.mem_append, List.mem_singleton] at hmem
        rcases hmem with hmem | hmem
        · exact old_hit hit hmem
        · exact ⟨r, by simp, hmem⟩
    · intro p hmem
      rcases hijackHandler_inflight_or env s playURL options r st with h1 | h1
      · rw [h1] at hmem
        exact old_probe p hmem
      · rw [h1, List.mem_append, List.mem_singleton] at hmem
        rcases hmem with hmem | hmem
        · exact old_probe p hmem
        · exact ⟨r, by simp, hmem⟩
  | headDone u o =>
    cases hf : st.inflight.find? (fun p => p.checkURL == u) with
    | none =>
      simp only [stepEvent, hf]
      exact ⟨old_hit, old_probe⟩
    | some p =>
      have hp : p ∈ st.inflight := List.mem_of_find?_eq_some hf
      simp only [stepEvent, hf]
      constructor
      · intro hit hmem
        rcases probeFinish_realURLs options p o { st with inflight := st.inflight.erase p }
          with h1 | h1
        · rw [h1] at hmem
          exact old_hit hit hmem
        · rw [h1, List.mem_append, List.mem_singleton] at hmem
          rcases hmem with hmem | hmem
          · exact old_hit hit hmem
          · obtain ⟨r, hr, heq⟩ := old_probe p hp
            refine ⟨r, hr, ?_⟩
            rw [hmem, heq]
            rfl
      · intro q hmem
        rw [(probeFinish_probes options p o { st with inflight := st.inflight.erase p }).2.1]
          at hmem
        exact old_probe q (List.mem_of_mem_erase hmem)

theorem runEvents_traced (env : Env) (s : Sniffer) (playURL : String)
    (options : SnifferOptions) (events : List Event) :
    Traced events (runEvents env s playURL options events) := by
  induction events using List.reverseRecOn with
  | nil =>
    constructor
    · intro hit hmem
      cases hmem
    · intro p hmem
      cases hmem
  | append_singleton l e ih =>
    have hrun : runEvents env s playURL options (l ++ [e]) =
        stepEvent env s playURL options (runEvents env s playURL options l) e := by
      unfold runEvents
      rw [List.foldl_append]
      rfl
    rw [hrun]
    exact traced_step env s playURL options l _ e ih

/-- Claim C7.  Header minimality: every hit in the hit list of a session, whether recorded
through `customRegex`, the default classification or a HEAD probe, has the URL of a request
of the session and the headers captured from that request; these have no key other than
`referer` and `user-agent`, no empty value, and `referer` (likewise `user-agent`) is present
exactly when the request has a non-empty `referer` header, whose value it then carries. -/
theorem hit_headers_minimal (env : Env) (s : Sniffer) (playURL : String)
    (options : SnifferOptions) (events : List Event) (hit : URLWithHeaders)
    (hmem : hit ∈ (runEvents env s playURL options events).realURLs) :
    ∃ r, Event.request r ∈ events ∧ hit.URL = r.URL ∧
      hit.Headers = captureHeaders r.Headers ∧ MinimalHeaders r.Headers hit.Headers := by
  obtain ⟨r, hr, heq⟩ := (runEvents_traced env s playURL options events).1 hit hmem
  refine ⟨r, hr, ?_, ?_, ?_⟩
  · rw [heq]; rfl
  · rw [heq]; rfl
  · rw [heq]
    exact captureHeaders_minimal r.Headers

/-- Claim C7 on a session whose only hit comes from a HEAD probe; the request carries a
referer, an empty user agent and an `accept` header, the hit carries the referer only. -/
theorem hit_headers_minimal_witness :
    ∃ r, Event.request r ∈
        [Event.request { URL := "https://host.example/path/segment",
                         Headers := [("accept", "*/*"), ("referer", "https://site.example/play"),
                                     ("user-agent", "")] },
         Event.headDone "https://host.example/path/segment"
           (HeadOutcome.response "application/octet-stream" "attachment; filename=x.m3u8")] ∧
      ({ URL := "https://host.example/path/segment",
         Headers := [("referer", "https://site.example/play")] } : URLWithHeaders).URL = r.URL ∧
      ({ URL := "https://host.example/path/segment",
         Headers := [("referer", "https://site.example/play")] } : URLWithHeaders).Headers =
        captureHeaders r.Headers ∧
      MinimalHeaders r.Headers
        ({ URL := "https://host.example/path/segment",
           Headers := [("referer", "https://site.example/play")] } : URLWithHeaders).Headers :=
  hit_headers_minimal plainEnv (NewSniffer none) "https://site.example/play" {}
    [Event.request { URL := "https://host.example/path/segment",
                     Headers := [("accept", "*/*"), ("referer", "https://site.example/play"),
                                 ("user-agent", "")] },
     Event.headDone "https://host.example/path/segment"
       (HeadOutcome.response "application/octet-stream" "attachment; filename=x.m3u8")]
    { URL := "https://host.example/path/segment",
      Headers := [("referer", "https://site.example/play")] }
    (by decide)

/-! ## Invalid input -/

theorem isValidURL_of_no_scheme (env : Env) (s : Sniffer) (playURL : String)
    (h : hasPrefix playURL "http://" = false ∧ hasPrefix playURL "https://" = false) :
    s.IsValidURL env playURL = false := by
  unfold Sniffer.IsValidURL
  rw [h.1, h.2]
  simp

/-- Claim C8.  Invalid input: when `IsValidURL` rejects `playURL` (as it does for every
string that begins with neither `http://` nor `https://`), `SnifferMediaURL` returns a
result with code 400, `from = playURL`, a non-empty message, no `url`, no `urls` and no
headers, and no error value; it allocates no page and leaves the browser as it was, and the
result is the same whatever the state of the browser. -/
theorem invalid_url_gives_400 (env : Env) (s : Sniffer) (browser : Option Browser)
    (playURL : String) (options : Option SnifferOptions) (events : List Event)
    (elapsedMs : Int)
    (hv : s.IsValidURL env playURL = false ∨
      (hasPrefix playURL "http://" = false ∧ hasPrefix playURL "https://" = false)) :
    (s.SnifferMediaURL env browser playURL options events elapsedMs).result.Code = 400 ∧
    (s.SnifferMediaURL env browser playURL options events elapsedMs).result.From = playURL ∧
    (s.SnifferMediaURL env browser playURL options events elapsedMs).result.Msg ≠ "" ∧
    (s.SnifferMediaURL env browser playURL options events elapsedMs).result.URL = "" ∧
    (s.SnifferMediaURL env browser playURL options events elapsedMs).result.URLs = none ∧
    (s.SnifferMediaURL env browser playURL options events elapsedMs).result.Headers = none ∧
    (s.SnifferMediaURL env browser playURL options events elapsedMs).err = none ∧
    (s.SnifferMediaURL env browser playURL options events elapsedMs).page = none ∧
    (s.SnifferMediaURL env browser playURL options events elapsedMs).browser = browser ∧
    (∀ other : Option Browser,
      (s.SnifferMediaURL env other playURL options events elapsedMs).result =
        (s.SnifferMediaURL env browser playURL options events elapsedMs).result) := by
  have hv2 : s.IsValidURL env playURL = false := by
    rcases hv with h | h
    · exact h
    · exact isValidURL_of_no_scheme env s playURL h
  have hout : ∀ b : Option Browser,
      s.SnifferMediaURL env b playURL options events elapsedMs =
        { result := { Code := 400, Msg := "无效的 URL", From := playURL,
                      Cost := costText elapsedMs }
          err := none
          browser := b } := by
    intro b
    unfold Sniffer.SnifferMediaURL
    simp only [hv2]
    rfl
  rw [hout browser]
  have hmsg : ("无效的 URL" : String) ≠ "" := by decide
  refine ⟨rfl, rfl, hmsg, rfl, rfl, rfl, rfl, rfl, rfl, ?_⟩
  intro other
  rw [hout other]

/-- Claim C8 at an `ftp` URL with a browser that has created three pages: code 400, and
the browser still counts three pages. -/
theorem invalid_url_gives_400_witness :
    (Sniffer.SnifferMediaURL plainEnv (NewSniffer none) (some { created := 3, closed := 3 })
      "ftp://site.example/play" none [] 0).result.Code = 400 ∧
    (Sniffer.SnifferMediaURL plainEnv (NewSniffer none) (some { created := 3, closed := 3 })
      "ftp://site.example/play" none [] 0).browser = some { created := 3, closed := 3 } :=
  have h := invalid_url_gives_400 plainEnv (NewSniffer none) (some { created := 3, closed := 3 })
    "ftp://site.example/play" none [] 0 (Or.inr ⟨by decide, by decide⟩)
  ⟨h.1, h.2.2.2.2.2.2.2.2.1⟩

/-! ## The dispatch of HEAD probes -/

/-- Claim C9, refuted as stated, at five requests of a session without user patterns, none
of them blocked, excluded or recorded as a hit.  The first three satisfy the condition of
the specification and get no probe: the path ends in a slash (empty last segment); the last
segment has a dot and the URL matches `urlNoHead`; the default classification accepts the
URL and the ambient test rejects it.  The last two get a probe and do not satisfy the
condition: the method is written `get`; the URL begins with `http` and its scheme is
`httpx`. -/
theorem probe_condition_differs :
    (specProbeCondition plainEnv (NewSniffer none) "https://site.example/play"
        { URL := "https://host.example/path/" } {} = true ∧
      hijackHandler plainEnv (NewSniffer none) "https://site.example/play" {}
        { URL := "https://host.example/path/" } {} = ({}, Response.continueRequest)) ∧
    (specProbeCondition plainEnv (NewSniffer none) "https://site.example/play"
        { URL := "https://host.example.com/x.php?ac=dm&url=abc" } {} = true ∧
      hijackHandler plainEnv (NewSniffer none) "https://site.example/play" {}
        { URL := "https://host.example.com/x.php?ac=dm&url=abc" } {} =
        ({}, Response.continueRequest)) ∧
    (specProbeCondition plainEnv (NewSniffer none) "https://site.example/play"
        { URL := "https://cdn.site.example/v/play.m3u8?url=http://x.example/" } {} = true ∧
      hijackHandler plainEnv (NewSniffer none) "https://site.example/play" {}
        { URL := "https://cdn.site.example/v/play.m3u8?url=http://x.example/" } {} =
        ({}, Response.continueRequest)) ∧
    (specProbeCondition plainEnv (NewSniffer none) "https://site.example/play"
        { URL := "https://host.example/path/segment", Method := "get" } {} = false ∧
      (hijackHandler plainEnv (NewSniffer none) "https://site.example/play" {}
        { URL := "https://host.example/path/segment", Method := "get" } {}).1.probes =
        [{ checkURL := "https://host.example/path/segment", headers := [] }]) ∧
    (specProbeCondition plainEnv (NewSniffer none) "https://site.example/play"
        { URL := "httpx://host.example/a.b" } {} = false ∧
      (hijackHandler plainEnv (NewSniffer none) "https://site.example/play" {}
        { URL := "httpx://host.example/a.b" } {}).1.probes =
        [{ checkURL := "httpx://host.example/a.b", headers := [] }]) := by
  decide

/-- Claim C9, amended.  For every request that the router neither blocks nor excludes and
that `customRegex` does not match, the handler starts a HEAD probe (and marks the URL as
probed) if and only if the default classification (`urlRegex` and `IsRealURLCheck`) does
not accept the URL, the method is `get` in any letter case, the URL begins with `http`,
differs from the input URL of the page, is not in the probed set, does not match
`urlNoHead`, `url.Parse` succeeds, and the last path segment is non-empty without a dot, or
contains a dot and is longer than one byte; otherwise the probes stay as they were. -/
theorem probe_dispatched_iff (env : Env) (s : Sniffer) (playURL : String)
    (options : SnifferOptions) (req : Request) (st : Session)
    (hb : s.shouldBlockResource req.ResourceType = false)
    (he : ¬ SetAndMatches env options.SnifferExclude req.URL)
    (hc : ¬ SetAndMatches env options.CustomRegex req.URL) :
    ((hijackHandler env s playURL options req st).1 = withProbe req st ↔
      (¬ (s.urlRegex.MatchString req.URL = true ∧ s.IsRealURLCheck req.URL = true) ∧
        toLower req.Method = "get" ∧ hasPrefix req.URL "http" = true ∧ req.URL ≠ playURL ∧
        st.headURLs.contains req.URL = false ∧ s.urlNoHead.MatchString req.URL = false ∧
        ∃ path, env.parsePath req.URL = some path ∧
          ((filenameOf path ≠ "" ∧ contains (filenameOf path) "." = false) ∨
           (contains (filenameOf path) "." = true ∧ (filenameOf path).utf8ByteSize > 1)))) ∧
    ((hijackHandler env s playURL options req st).1.probes = st.probes ↔
      ¬ (¬ (s.urlRegex.MatchString req.URL = true ∧ s.IsRealURLCheck req.URL = true) ∧
        toLower req.Method = "get" ∧ hasPrefix req.URL "http" = true ∧ req.URL ≠ playURL ∧
        st.headURLs.contains req.URL = false ∧ s.urlNoHead.MatchString req.URL = false ∧
        ∃ path, env.parsePath req.URL = some path ∧
          ((filenameOf path ≠ "" ∧ contains (filenameOf path) "." = false) ∨
           (contains (filenameOf path) "." = true ∧ (filenameOf path).utf8ByteSize > 1)))) := by
  have he2 : userRegexMatches env options.SnifferExclude req.URL = false := by
    rw [← Bool.not_eq_true, userRegexMatches_iff]
    exact he
  have hc2 : userRegexMatches env options.CustomRegex req.URL = false := by
    rw [← Bool.not_eq_true, userRegexMatches_iff]
    exact hc
  have hD : Dispatches env s playURL options req st ↔
      (¬ (s.urlRegex.MatchString req.URL = true ∧ s.IsRealURLCheck req.URL = true) ∧
        toLower req.Method = "get" ∧ hasPrefix req.URL "http" = true ∧ req.URL ≠ playURL ∧
        st.headURLs.contains req.URL = false ∧ s.urlNoHead.MatchString req.URL = false ∧
        ∃ path, env.parsePath req.URL = some path ∧
          ((filenameOf path ≠ "" ∧ contains (filenameOf path) "." = false) ∨
           (contains (filenameOf path) "." = true ∧ (filenameOf path).utf8ByteSize > 1))) := by
    unfold Dispatches
    exact ⟨fun h => h.2.2.2, fun h => ⟨hb, he2, hc2, h⟩⟩
  rw [← hD]
  have hdis := hijackHandler_dispatch env s playURL options req st
  constructor
  · constructor
    · intro h
      by_contra hn
      have hp := (hdis.2 hn).1
      rw [h] at hp
      exact append_singleton_ne _ _ hp
    · exact hdis.1
  · constructor
    · intro h hd
      rw [hdis.1 hd] at h
      exact append_singleton_ne _ _ h
    · intro hn
      exact (hdis.2 hn).1

/-- Claim C9, amended, at a GET request whose last path segment has no dot: the probe is
started and the URL is marked as probed. -/
theorem probe_dispatched_iff_witness :
    (hijackHandler plainEnv (NewSniffer none) "https://site.example/play" {}
      { URL := "https://host.example/path/segment" } {}).1 =
      { probes := [{ checkURL := "https://host.example/path/segment", headers := [] }]
        inflight := [{ checkURL := "https://host.example/path/segment", headers := [] }]
        headURLs := ["https://host.example/path/segment"] } :=
  (probe_dispatched_iff plainEnv (NewSniffer none) "https://site.example/play" {}
      { URL := "https://host.example/path/segment" } {}
      (by decide) (fun h => h.1 rfl) (fun h => h.1 rfl)).1.2
    ⟨by decide, by decide, by decide, by decide, by decide, by decide,
      "/path/segment", by decide, Or.inl ⟨by decide, by decide⟩⟩

/-! ## The classification by a HEAD probe -/

theorem probeFinish_response (options : SnifferOptions) (p : Probe) (c d : String)
    (st : Session) :
    (probeFinish options p (HeadOutcome.response c d) st).realURLs =
      if c = "application/octet-stream" ∧ contains d ".m3u8" = true then
        st.realURLs ++ [{ URL := p.checkURL, Headers := captureHeaders p.headers }]
      else st.realURLs := by
  have hempty : contains "" ".m3u8" = false := by decide
  unfold probeFinish
  dsimp only
  by_cases hc : c = "application/octet-stream"
  · by_cases hd : contains d ".m3u8" = true
    · have hne : d ≠ "" := by
        intro h
        rw [h, hempty] at hd
        exact Bool.noConfusion hd
      rw [if_pos (by simp [hc, hd, hne]), if_pos ⟨hc, hd⟩, recordHit_realURLs]
    · rw [if_neg (by simp [hd]), if_neg (fun h => hd h.2)]
  · rw [if_neg (by simp [hc]), if_neg (fun h => hc h.1)]

/-- Claim C10.  HEAD-probe classification: when the exchange of the unfinished probe of a
URL `u` ends with a response of Content-Type `c` and Content-Disposition `d`, a hit with
URL `u` and the headers captured from the request behind the probe is appended to the hit
list if and only if `c` is `application/octet-stream` and `d` contains `.m3u8`; with any
other response, and when the exchange fails, the hit list stays as it was. -/
theorem head_probe_classification (env : Env) (s : Sniffer) (playURL : String)
    (options : SnifferOptions) (st : Session) (u : String) (p : Probe)
    (hf : st.inflight.find? (fun q => q.checkURL == u) = some p) :
    (∀ c d,
      ((stepEvent env s playURL options st
          (Event.headDone u (HeadOutcome.response c d))).realURLs =
          st.realURLs ++ [{ URL := u, Headers := captureHeaders p.headers }] ↔
        (c = "application/octet-stream" ∧ contains d ".m3u8" = true)) ∧
      ((stepEvent env s playURL options st
          (Event.headDone u (HeadOutcome.response c d))).realURLs = st.realURLs ↔
        ¬ (c = "application/octet-stream" ∧ contains d ".m3u8" = true))) ∧
    (stepEvent env s playURL options st
      (Event.headDone u HeadOutcome.newRequestError)).realURLs = st.realURLs ∧
    (stepEvent env s playURL options st
      (Event.headDone u HeadOutcome.doError)).realURLs = st.realURLs := by
  have hu : p.checkURL = u := by
    have h := List.find?_some hf
    simpa using h
  refine ⟨?_, ?_, ?_⟩
  · intro c d
    simp only [stepEvent, hf]
    rw [probeFinish_response, hu]
    by_cases hcd : c = "application/octet-stream" ∧ contains d ".m3u8" = true
    · rw [if_pos hcd]
      exact ⟨⟨fun _ => hcd, fun _ => rfl⟩,
        ⟨fun h => absurd h (append_singleton_ne _ _), fun hn => absurd hcd hn⟩⟩
    · rw [if_neg hcd]
      exact ⟨⟨fun h => absurd h.symm (append_singleton_ne _ _), fun h => absurd h hcd⟩,
        ⟨fun _ => hcd, fun _ => rfl⟩⟩
  · simp only [stepEvent, hf]
    rfl
  · simp only [stepEvent, hf]
    rfl

/-- Claim C10 at the probe of a segment URL answered with an octet stream whose
disposition names an `.m3u8` file: the hit is appended with the referer of the request. -/
theorem head_probe_classification_witness :
    (stepEvent plainEnv (NewSniffer none) "https://site.example/play" {}
      { inflight := [{ checkURL := "https://host.example/path/segment",
                       headers := [("referer", "https://site.example/play")] }] }
      (Event.headDone "https://host.example/path/segment"
        (HeadOutcome.response "application/octet-stream"
          "attachment; filename=x.m3u8"))).realURLs =
      [] ++ [{ URL := "https://host.example/path/segment",
               Headers := captureHeaders [("referer", "https://site.example/play")] }] :=
  ((head_probe_classification plainEnv (NewSniffer none) "https://site.example/play" {}
      { inflight := [{ checkURL := "https://host.example/path/segment",
                       headers := [("referer", "https://site.example/play")] }] }
      "https://host.example/path/segment"
      { checkURL := "https://host.example/path/segment",
        headers := [("referer", "https://site.example/play")] }
      (by decide)).1 "application/octet-stream" "attachment; filename=x.m3u8").1.2
    ⟨rfl, by decide⟩

/-! ## Probe deduplication -/

theorem dedup_step (env : Env) (s : Sniffer) (playURL : String) (options : SnifferOptions)
    (st : Session) (e : Event)
    (h : (st.probes.map (fun p => p.checkURL)).Nodup ∧ ∀ p ∈ st.probes, p.checkURL ∈ st.headURLs) :
    ((stepEvent env s playURL options st e).probes.map (fun p => p.checkURL)).Nodup ∧
    ∀ p ∈ (stepEvent env s playURL options st e).probes,
      p.checkURL ∈ (stepEvent env s playURL options st e).headURLs := by
  obtain ⟨hnd, hsub⟩ := h
  cases e with
  | request r =>
    simp only [stepEvent]
    by_cases hd : Dispatches env s playURL options r st
    · rw [(hijackHandler_dispatch env s playURL options r st).1 hd]
      have hnew : r.URL ∉ st.headURLs := by
        have h8 := hd.2.2.2.2.2.2.2.1
        intro hmem
        have h9 : st.headURLs.contains r.URL = true := by simpa using hmem
        rw [h9] at h8
        exact Bool.noConfusion h8
      unfold withProbe
      dsimp only
      constructor
      · rw [List.map_append, List.nodup_append]
        refine ⟨hnd, by simp, ?_⟩
        intro a ha hb
        simp only [List.map_cons, List.map_nil, List.mem_singleton] at hb
        rw [List.mem_map] at ha
        obtain ⟨p, hp, hpa⟩ := ha
        apply hnew
        rw [← hb, ← hpa]
        exact hsub p hp
      · intro p hp
        rw [List.mem_append, List.mem_singleton] at hp
        rcases hp with hp | hp
        · exact List.mem_cons_of_mem _ (hsub p hp)
        · rw [hp]
          exact List.mem_cons_self _ _
    · obtain ⟨h1, _, h3⟩ := (hijackHandler_dispatch env s playURL options r st).2 hd
      rw [h1, h3]
      exact ⟨hnd, hsub⟩
  | headDone u o =>
    cases hf : st.inflight.find? (fun p => p.checkURL == u) with
    | none =>
      simp only [stepEvent, hf]
      exact ⟨hnd, hsub⟩
    | some p =>
      simp only [stepEvent, hf]
      obtain ⟨h1, _, h3⟩ :=
        probeFinish_probes options p o { st with inflight := st.inflight.erase p }
      rw [h1, h3]
      exact ⟨hnd, hsub⟩

theorem runEvents_dedup (env : Env) (s : Sniffer) (playURL : String)
    (options : SnifferOptions) (events : List Event) :
    ((runEvents env s playURL options events).probes.map (fun p => p.checkURL)).Nodup ∧
    ∀ p ∈ (runEvents env s playURL options events).probes,
      p.checkURL ∈ (runEvents env s playURL options events).headURLs := by
  induction events using List.reverseRecOn with
  | nil =>
    constructor
    · exact List.nodup_nil
    · intro p hmem
      cases hmem
  | append_singleton l e ih =>
    have hrun : runEvents env s playURL options (l ++ [e]) =
        stepEvent env s playURL options (runEvents env s playURL options l) e := by
      unfold runEvents
      rw [List.foldl_append]
      rfl
    rw [hrun]
    exact dedup_step env s playURL options _ e ih

/-- Claim C11.  Probe deduplication: after any finite sequence of events of one session
(requests handled one after another, and probe exchanges ending in any way), at most one
HEAD probe has been started for any URL `u`; every URL with a probe is in the probed set,
and a further request for a URL of the probed set starts no probe, also when the exchange
of the first probe has failed. -/
theorem probe_deduplication (env : Env) (s : Sniffer) (playURL : String)
    (options : SnifferOptions) (events : List Event) (u : String) :
    ((runEvents env s playURL options events).probes.map (fun p => p.checkURL)).count u ≤ 1 ∧
    (∀ p ∈ (runEvents env s playURL options events).probes,
      p.checkURL ∈ (runEvents env s playURL options events).headURLs) ∧
    (∀ req : Request, req.URL ∈ (runEvents env s playURL options events).headURLs →
      (hijackHandler env s playURL options req
        (runEvents env s playURL options events)).1.probes =
        (runEvents env s playURL options events).probes) := by
  obtain ⟨hnd, hsub⟩ := runEvents_dedup env s playURL options events
  refine ⟨List.nodup_iff_count_le_one.1 hnd u, hsub, ?_⟩
  intro req hmem
  have hnot : ¬ Dispatches env s playURL options req
      (runEvents env s playURL options events) := by
    intro hd
    have h8 := hd.2.2.2.2.2.2.2.1
    have h9 : (runEvents env s playURL options events).headURLs.contains req.URL = true := by
      simpa using hmem
    rw [h9] at h8
    exact Bool.noConfusion h8
  exact ((hijackHandler_dispatch env s playURL options req _).2 hnot).1

/-- Claim C11 on a session with two requests for one URL around the failure of its probe:
one probe has been started. -/
theorem probe_deduplication_witness :
    ((runEvents plainEnv (NewSniffer none) "https://site.example/play" {}
      [Event.request { URL := "https://host.example/path/segment" },
       Event.headDone "https://host.example/path/segment" HeadOutcome.doError,
       Event.request { URL := "https://host.example/path/segment" }]).probes.map
        (fun p => p.checkURL)).count "https://host.example/path/segment" = 1 :=
  Nat.le_antisymm
    (probe_deduplication plainEnv (NewSniffer none) "https://site.example/play" {}
      [Event.request { URL := "https://host.example/path/segment" },
       Event.headDone "https://host.example/path/segment" HeadOutcome.doError,
       Event.request { URL := "https://host.example/path/segment" }]
      "https://host.example/path/segment").1
    (by decide)

/-! ## Scenario S5 -/

/-- Claim C12, refuted as stated: `https://cdn/b.mp4` has five characters between `://`
and `.mp4`, fewer than the twelve that `urlRegex` asks for, so the default pattern does
not match it.  In the mode-1 session with `snifferExclude = ads\.example` and the two
requests (the probe of the second URL failing, or not finishing), no hit is recorded: the
result has code 404 and no `urls`. -/
theorem scenario_S5_records_nothing :
    (NewSniffer none).urlRegex.MatchString "https://cdn/b.mp4" = false ∧
    (Sniffer.SnifferMediaURL plainEnv (NewSniffer none) (some {}) "https://site.example/play"
      (some { Mode := 1, SnifferExclude := "ads\\.example", Timeout := 2000 })
      [Event.request { URL := "https://ads.example/a.mp4" },
       Event.request { URL := "https://cdn/b.mp4" },
       Event.headDone "https://cdn/b.mp4" HeadOutcome.doError] 2001).result.Code = 404 ∧
    (Sniffer.SnifferMediaURL plainEnv (NewSniffer none) (some {}) "https://site.example/play"
      (some { Mode := 1, SnifferExclude := "ads\\.example", Timeout := 2000 })
      [Event.request { URL := "https://ads.example/a.mp4" },
       Event.request { URL := "https://cdn/b.mp4" },
       Event.headDone "https://cdn/b.mp4" HeadOutcome.doError] 2001).result.URLs = none ∧
    (Sniffer.SnifferMediaURL plainEnv (NewSniffer none) (some {}) "https://site.example/play"
      (some { Mode := 1, SnifferExclude := "ads\\.example", Timeout := 2000 })
      [Event.request { URL := "https://ads.example/a.mp4" },
       Event.request { URL := "https://cdn/b.mp4" }] 2001).result.URLs = none := by
  decide

theorem userRegexMatches_of_compile (env : Env) (pattern url : String) (re : String → Bool)
    (hne : pattern ≠ "") (hre : env.compile ("(?mi)" ++ pattern) = some re)
    (hm : re url = true) :
    userRegexMatches env pattern url = true :=
  (userRegexMatches_iff env pattern url).2 ⟨hne, re, hre, hm⟩

/-- Claim C12, amended.  Scenario S5 with a second URL that the default pattern matches:
in a mode-1 session with `snifferExclude = ads\.example`, no `customRegex`, and exactly two
non-blocked requests, to `https://ads.example/a.mp4` and then to
`https://cdn.example.com/b.mp4`, the result has code 200 and its `urls` has exactly one
entry, the hit of the second request. -/
theorem scenario_S5_long_url (env : Env) (config : Option SnifferConfig) (b : Browser)
    (playURL : String) (options : SnifferOptions) (re : String → Bool) (r1 r2 : Request)
    (elapsedMs : Int)
    (hv : (NewSniffer config).IsValidURL env playURL = true) (hp : b.pageError = none)
    (hmode : options.Mode = 1) (hex : options.SnifferExclude = "ads\\.example")
    (hre : env.compile "(?mi)ads\\.example" = some re)
    (hm1 : re "https://ads.example/a.mp4" = true)
    (hm2 : re "https://cdn.example.com/b.mp4" = false)
    (hu1 : r1.URL = "https://ads.example/a.mp4")
    (hu2 : r2.URL = "https://cdn.example.com/b.mp4")
    (ht2 : (NewSniffer config).shouldBlockResource r2.ResourceType = false) :
    ((NewSniffer config).SnifferMediaURL env (some b) playURL (some options)
      [Event.request r1, Event.request r2] elapsedMs).result.Code = 200 ∧
    ((NewSniffer config).SnifferMediaURL env (some b) playURL (some options)
      [Event.request r1, Event.request r2] elapsedMs).result.URLs = some [hitOf r2] ∧
    (hitOf r2).URL = "https://cdn.example.com/b.mp4" := by
  have hne : ("ads\\.example" : String) ≠ "" := by decide
  have hcat : "(?mi)" ++ ("ads\\.example" : String) = "(?mi)ads\\.example" := by decide
  have hx1 : userRegexMatches env options.SnifferExclude r1.URL = true := by
    rw [hex, hu1]
    exact userRegexMatches_of_compile env _ _ re hne (hcat ▸ hre) hm1
  have hx2 : userRegexMatches env options.SnifferExclude r2.URL = false := by
    rw [hex, hu2]
    unfold userRegexMatches
    rw [hcat, hre]
    simp [hm2]
  have hmatch : (NewSniffer config).urlRegex.MatchString r2.URL = true := by
    rw [hu2]
    show urlRegexPattern.MatchString "https://cdn.example.com/b.mp4" = true
    decide
  have hreal : (NewSniffer config).IsRealURLCheck r2.URL = true := by
    rw [hu2]
    show realLoop (toLower "https://cdn.example.com/b.mp4") excludePatterns = true
    decide
  have hclean : ambientClean r2.URL = true := by
    rw [hu2]
    decide
  have hL : (runEvents env (NewSniffer config) playURL options
      [Event.request r1, Event.request r2]).realURLs = [hitOf r2] := by
    have hrun : runEvents env (NewSniffer config) playURL options
        [Event.request r1, Event.request r2] =
        (hijackHandler env (NewSniffer config) playURL options r2
          (hijackHandler env (NewSniffer config) playURL options r1 {}).1).1 := rfl
    rw [hrun, hijackHandler_realURLs_cases, hijackHandler_realURLs_cases,
      if_pos ⟨ht2, hx2, Or.inr ⟨hmatch, hreal, hclean⟩⟩, if_neg (by rw [hx1]; simp)]
    rfl
  rw [(snifferMediaURL_allocated env (NewSniffer config) b playURL options _ elapsedMs hv hp).1,
    hL]
  unfold assembleResult
  rw [dif_neg (by rw [hmode]; simp), if_pos ⟨hmode, by simp⟩]
  exact ⟨rfl, rfl, hu2⟩

/-- Claim C12, amended, evaluated with the default configuration. -/
theorem scenario_S5_long_url_witness :
    (Sniffer.SnifferMediaURL plainEnv (NewSniffer none) (some {}) "https://site.example/play"
      (some { Mode := 1, SnifferExclude := "ads\\.example", Timeout := 2000 })
      [Event.request { URL := "https://ads.example/a.mp4" },
       Event.request { URL := "https://cdn.example.com/b.mp4" }] 2001).result.URLs =
      some [{ URL := "https://cdn.example.com/b.mp4", Headers := [] }] :=
  (scenario_S5_long_url plainEnv none {} "https://site.example/play"
    { Mode := 1, SnifferExclude := "ads\\.example", Timeout := 2000 }
    (fun url => (Regex.litFold "ads.example").MatchString url)
    { URL := "https://ads.example/a.mp4" } { URL := "https://cdn.example.com/b.mp4" } 2001
    (by decide) rfl rfl rfl rfl (by decide) (by decide) rfl rfl (by decide)).2.1

/-! ## Device selection -/

/-- Claim C13, evaluated on the code: the page that `SnifferMediaURL` allocates does not
depend on `options.IsPc`; with the configuration of the HTTP adapter and `is_pc=1` the page
gets the iPhone X profile and the mobile user agent, and with a configuration whose device
type is `pc` and `is_pc=0` the page gets no device profile. -/
theorem page_device_ignores_isPc :
    (∀ (env : Env) (s : Sniffer) (browser : Option Browser) (playURL : String)
        (options : SnifferOptions) (events : List Event) (elapsedMs : Int),
      (s.SnifferMediaURL env browser playURL (some { options with IsPc := true }) events
          elapsedMs).page =
        (s.SnifferMediaURL env browser playURL (some { options with IsPc := false }) events
          elapsedMs).page) ∧
    (Sniffer.SnifferMediaURL plainEnv (NewSniffer (some adapterConfig)) (some {})
        "https://site.example/play" (some { IsPc := parsedIsPc "1" }) [] 0).page =
      some { device := some "iPhone X"
             userAgent := "Mozilla/5.0 (iPhone; CPU iPhone OS 17_0 like Mac OS X) AppleWebKit/605.1.15 (KHTML, like Gecko) Version/17.0 Mobile/15E148 Safari/604.1"
             extraHeaders := [] } ∧
    ((Sniffer.SnifferMediaURL plainEnv (NewSniffer (some { DeviceType := "pc" })) (some {})
        "https://site.example/play" (some { IsPc := parsedIsPc "0" }) [] 0).page.map
        (fun page => page.device)) = some none := by
  refine ⟨?_, by decide, by decide⟩
  intro env s browser playURL options events elapsedMs
  unfold Sniffer.SnifferMediaURL
  dsimp only
  split
  · rfl
  · split <;> rfl

/-! ## The timeout under the configuration of the adapter -/

/-- Claim C15, refuted as stated: the adapter passes `timeout=-9223372036855` on unchanged,
and under its configuration the duration that `SnifferMediaURL` computes for it is
9223372036854551616 ns (about 292 years), because the conversion of the milliseconds to
nanoseconds wraps around in `int64`; the deadline is then neither at most 0 nor equal to
`options.Timeout` milliseconds. -/
theorem adapter_timeout_wraps_positive :
    parsedTimeout (some (-9223372036855)) = -9223372036855 ∧
    (NewSniffer (some adapterConfig)).sessionTimeout
        { Mode := 0, Timeout := parsedTimeout (some (-9223372036855)) } =
      9223372036854551616 ∧
    (NewSniffer (some adapterConfig)).sessionTimeout
        { Mode := 1, Timeout := parsedTimeout (some (-9223372036855)) } =
      9223372036854551616 ∧
    ¬ (NewSniffer (some adapterConfig)).sessionTimeout
        { Mode := 0, Timeout := parsedTimeout (some (-9223372036855)) } ≤ 0 ∧
    (NewSniffer (some adapterConfig)).sessionTimeout
        { Mode := 0, Timeout := parsedTimeout (some (-9223372036855)) } ≠
      -9223372036855 * 1000000 := by
  decide

/-- Claim C15, amended.  With the configuration that `initSniffer` constructs
(`config.Timeout = config.SnifferTimeout = 0`), for every mode and every `options.Timeout`
not below -9223372036854 (so that its nanoseconds fit an `int64`), the duration that
`SnifferMediaURL` computes is at most 0: it is 0 whenever `options.Timeout > 0` and
`options.Timeout` milliseconds otherwise. -/
theorem adapter_timeout_nonpositive (options : SnifferOptions)
    (hlo : -9223372036854 ≤ options.Timeout) :
    (NewSniffer (some adapterConfig)).sessionTimeout options ≤ 0 ∧
    (options.Timeout > 0 → (NewSniffer (some adapterConfig)).sessionTimeout options = 0) ∧
    (options.Timeout ≤ 0 →
      (NewSniffer (some adapterConfig)).sessionTimeout options = options.Timeout * 1000000) := by
  have hlimit : timeoutLimit (NewSniffer (some adapterConfig)) options = 0 := by
    unfold timeoutLimit
    split <;> rfl
  have hzero : durationOfMs 0 = 0 := by decide
  have heq := sessionTimeout_eq (NewSniffer (some adapterConfig)) options
  rw [hlimit] at heq
  by_cases hpos : options.Timeout > 0
  · rw [min_eq_right (le_of_lt hpos), hzero] at heq
    exact ⟨le_of_eq heq, fun _ => heq, fun hle => absurd hpos (not_lt.2 hle)⟩
  · have hle : options.Timeout ≤ 0 := not_lt.1 hpos
    rw [min_eq_left hle, durationOfMs_fit _ hlo (by omega)] at heq
    exact ⟨by rw [heq]; omega, fun h => absurd h hpos, fun _ => heq⟩

/-- Claim C15, amended, at the default timeout of the adapter: 10000 ms becomes 0. -/
theorem adapter_timeout_nonpositive_witness :
    (NewSniffer (some adapterConfig)).sessionTimeout
      { Mode := 0, Timeout := parsedTimeout none } = 0 :=
  (adapter_timeout_nonpositive { Mode := 0, Timeout := parsedTimeout none } (by decide)).2.1
    (by decide)

/-! ## Modes other than 0 and 1 -/

/-- Claim C16, refuted as stated: on a valid URL in mode 2 the result has code 500, not
404, when no page can be allocated, be it that the browser is nil or that `browser.Page`
reports an error. -/
theorem other_mode_without_page_gives_500 :
    (NewSniffer none).IsValidURL plainEnv "https://site.example/play" = true ∧
    (Sniffer.SnifferMediaURL plainEnv (NewSniffer none) none "https://site.example/play"
      (some { Mode := parsedMode (some 2), Timeout := 5000 }) [] 0).result.Code = 500 ∧
    (Sniffer.SnifferMediaURL plainEnv (NewSniffer none)
      (some { pageError := some "target closed" }) "https://site.example/play"
      (some { Mode := parsedMode (some 2), Timeout := 5000 }) [] 0).result.Code = 500 := by
  decide

/-- Claim C16, amended.  For every `options.Mode` other than 0 and 1, `SnifferMediaURL` on a
valid URL whose page was allocated returns code 404 with an empty `url` and no `urls`,
whatever hits the session recorded, and the duration it gives to `context.WithTimeout` is
the one it gives in mode 0 for the same `options.Timeout`, clamped against
`config.SnifferTimeout`. -/
theorem other_mode_gives_404 (env : Env) (s : Sniffer) (b : Browser) (playURL : String)
    (options : SnifferOptions) (events : List Event) (elapsedMs : Int)
    (hv : s.IsValidURL env playURL = true) (hp : b.pageError = none)
    (h0 : options.Mode ≠ 0) (h1 : options.Mode ≠ 1) :
    (s.SnifferMediaURL env (some b) playURL (some options) events elapsedMs).result.Code = 404 ∧
    (s.SnifferMediaURL env (some b) playURL (some options) events elapsedMs).result.URL = "" ∧
    (s.SnifferMediaURL env (some b) playURL (some options) events elapsedMs).result.URLs =
      none ∧
    (s.SnifferMediaURL env (some b) playURL (some options) events elapsedMs).timeout =
      some (s.sessionTimeout { options with Mode := 0 }) ∧
    s.sessionTimeout options =
      (if options.Timeout > s.config.SnifferTimeout then durationOfMs s.config.SnifferTimeout
       else durationOfMs options.Timeout) := by
  have hall := snifferMediaURL_allocated env s b playURL options events elapsedMs hv hp
  have ht : s.sessionTimeout options =
      (if options.Timeout > s.config.SnifferTimeout then durationOfMs s.config.SnifferTimeout
       else durationOfMs options.Timeout) := by
    unfold Sniffer.sessionTimeout
    dsimp only
    rw [if_neg h1]
  have ht0 : s.sessionTimeout { options with Mode := 0 } =
      (if options.Timeout > s.config.SnifferTimeout then durationOfMs s.config.SnifferTimeout
       else durationOfMs options.Timeout) := by
    unfold Sniffer.sessionTimeout
    dsimp only
    rw [if_neg (by decide)]
  have hres : assembleResult playURL options
      (runEvents env s playURL options events).realURLs (costText elapsedMs) =
      { URL := "", Headers := some [], From := playURL, Cost := costText elapsedMs,
        Script := options.Script, InitScript := options.InitScript, Code := 404,
        Msg := "超级嗅探解析失败" } := by
    unfold assembleResult
    rw [dif_neg (fun h => h0 h.1), if_neg (fun h => h1 h.1)]
  rw [hall.1, hall.2.2, hres]
  exact ⟨rfl, rfl, rfl, by rw [ht0, ht], ht⟩

/-- Claim C16, amended, on a session in mode 2 that recorded a hit: code 404. -/
theorem other_mode_gives_404_witness :
    (runEvents plainEnv (NewSniffer none) "https://site.example/play"
      { Mode := 2, Timeout := 5000 }
      [Event.request { URL := "https://cdn.site.example/stream/abc.m3u8" }]).realURLs.length
      = 1 ∧
    (Sniffer.SnifferMediaURL plainEnv (NewSniffer none) (some {}) "https://site.example/play"
      (some { Mode := 2, Timeout := 5000 })
      [Event.request { URL := "https://cdn.site.example/stream/abc.m3u8" }] 12).result.Code
      = 404 :=
  ⟨by decide,
    (other_mode_gives_404 plainEnv (NewSniffer none) {} "https://site.example/play"
      { Mode := 2, Timeout := 5000 }
      [Event.request { URL := "https://cdn.site.example/stream/abc.m3u8" }] 12
      (by decide) rfl (by decide) (by decide)).1⟩

/-! ## The ambient test against `IsRealURLCheck` -/

theorem isPrefixOf_map (f : Char → Char) (sub cs : List Char)
    (h : sub.isPrefixOf cs = true) : (sub.map f).isPrefixOf (cs.map f) = true := by
  induction sub generalizing cs with
  | nil => simp
  | cons a sub ih =>
    cases cs with
    | nil => simp at h
    | cons c cs =>
      simp only [List.isPrefixOf, Bool.and_eq_true, beq_iff_eq] at h
      simp only [List.map_cons, List.isPrefixOf, Bool.and_eq_true, beq_iff_eq]
      exact ⟨congrArg f h.1, ih cs h.2⟩

theorem containsChars_map (f : Char → Char) (cs sub : List Char)
    (h : containsChars cs sub = true) : containsChars (cs.map f) (sub.map f) = true := by
  induction cs with
  | nil =>
    unfold containsChars at h
    exact isPrefixOf_map f sub [] h
  | cons c cs ih =>
    unfold containsChars at h
    rw [Bool.or_eq_true] at h
    rw [List.map_cons]
    unfold containsChars
    rw [Bool.or_eq_true]
    rcases h with h | h
    · exact Or.inl (isPrefixOf_map f sub (c :: cs) h)
    · exact Or.inr (ih h)

theorem contains_toLower (u pattern : String)
    (hfix : pattern.data.map toLowerRune = pattern.data) (h : contains u pattern = true) :
    contains (toLower u) pattern = true := by
  unfold contains toLower at *
  have hm := containsChars_map toLowerRune u.data pattern.data h
  rw [hfix] at hm
  exact hm

theorem realLoop_true (lowerURL : String) (patterns : List String)
    (h : realLoop lowerURL patterns = true) :
    ∀ pattern ∈ patterns, contains lowerURL pattern = false := by
  induction patterns with
  | nil =>
    intro pattern hmem
    cases hmem
  | cons q rest ih =>
    unfold realLoop at h
    by_cases hq : contains lowerURL q = true
    · rw [if_pos hq] at h
      exact Bool.noConfusion h
    · rw [if_neg hq] at h
      intro pattern hmem
      rcases List.mem_cons.1 hmem with hm | hm
      · rw [hm]
        exact Bool.not_eq_true _ ▸ hq
      · exact ih h pattern hm

theorem isRealURLCheck_excludes (s : Sniffer) (u pattern : String)
    (hmem : pattern ∈ excludePatterns)
    (hfix : pattern.data.map toLowerRune = pattern.data)
    (h : s.IsRealURLCheck u = true) : contains u pattern = false := by
  have hl := realLoop_true (toLower u) excludePatterns h pattern hmem
  cases hc : contains u pattern with
  | false => rfl
  | true =>
    rw [contains_toLower u pattern hfix hc] at hl
    exact Bool.noConfusion hl

/-- Claim C17.  The ambient tests for `.css` and `.html` are redundant: a URL that
`IsRealURLCheck` accepts contains neither `.css` nor `.html` nor `.htm`, so the handler's
condition for a default hit (`urlRegex` matches, `IsRealURLCheck` accepts, the ambient test
passes) is equivalent, for every URL, to: `urlRegex` matches, `IsRealURLCheck` accepts, and
the URL contains neither `url=http` nor `v=http`. -/
theorem ambient_css_html_redundant (s : Sniffer) (u : String) :
    (s.IsRealURLCheck u = true →
      contains u ".css" = false ∧ contains u ".html" = false ∧ contains u ".htm" = false) ∧
    ((s.urlRegex.MatchString u = true ∧ s.IsRealURLCheck u = true ∧ ambientClean u = true) ↔
      (s.urlRegex.MatchString u = true ∧ s.IsRealURLCheck u = true ∧
        contains u "url=http" = false ∧ contains u "v=http" = false)) := by
  have hreal : s.IsRealURLCheck u = true →
      contains u ".css" = false ∧ contains u ".html" = false ∧ contains u ".htm" = false := by
    intro h
    exact ⟨isRealURLCheck_excludes s u ".css" (by decide) (by decide) h,
      isRealURLCheck_excludes s u ".html" (by decide) (by decide) h,
      isRealURLCheck_excludes s u ".htm" (by decide) (by decide) h⟩
  refine ⟨hreal, ?_⟩
  rw [ambientClean_iff]
  constructor
  · rintro ⟨hm, hr, h1, h2, _, _⟩
    exact ⟨hm, hr, h1, h2⟩
  · rintro ⟨hm, hr, h1, h2⟩
    exact ⟨hm, hr, h1, h2, (hreal hr).1, (hreal hr).2.1⟩

/-- Claim C17 at a URL with capitals that `IsRealURLCheck` accepts. -/
theorem ambient_css_html_redundant_witness :
    contains "https://CDN.site.example/stream/abc.m3u8" ".css" = false ∧
    contains "https://CDN.site.example/stream/abc.m3u8" ".html" = false ∧
    contains "https://CDN.site.example/stream/abc.m3u8" ".htm" = false :=
  (ambient_css_html_redundant (NewSniffer none)
    "https://CDN.site.example/stream/abc.m3u8").1 (by decide)

/-! ## `parseHeaders` -/

theorem indexOfChar_decomp (c : Char) (name rest : List Char) (h : c ∉ name) :
    indexOfChar c (name ++ c :: rest) = some name.length := by
  induction name with
  | nil => simp [indexOfChar]
  | cons d ds ih =>
    have hd : d ≠ c := fun e => h (e ▸ List.mem_cons_self _ _)
    have hds : c ∉ ds := fun e => h (List.mem_cons_of_mem _ e)
    simp [indexOfChar, hd, ih hds]

theorem indexOfChar_some (c : Char) (l : List Char) (i : Nat) (h : indexOfChar c l = some i) :
    l = l.take i ++ c :: l.drop (i + 1) ∧ c ∉ l.take i := by
  induction l generalizing i with
  | nil => simp [indexOfChar] at h
  | cons d ds ih =>
    unfold indexOfChar at h
    by_cases hd : (d == c) = true
    · rw [if_pos hd] at h
      have hi : i = 0 := by
        injection h with h
        exact h.symm
      have hdc : d = c := by simpa using hd
      subst hi
      simp [hdc]
    · rw [if_neg hd] at h
      cases hj : indexOfChar c ds with
      | none => rw [hj] at h; simp at h
      | some j =>
        rw [hj] at h
        have hi : i = j + 1 := by
          simp at h
          exact h.symm
        subst hi
        obtain ⟨h1, h2⟩ := ih j hj
        have hdc : ¬ c = d := fun e => hd (by simp [e])
        constructor
        · simp only [List.take_succ_cons, List.drop_succ_cons, List.cons_append]
          rw [← h1]
        · simp only [List.take_succ_cons, List.mem_cons, not_or]
          exact ⟨hdc, h2⟩

theorem indexOfChar_none (c : Char) (l : List Char) (h : indexOfChar c l = none) : c ∉ l := by
  induction l with
  | nil => simp
  | cons d ds ih =>
    unfold indexOfChar at h
    by_cases hd : (d == c) = true
    · rw [if_pos hd] at h
      simp at h
    · rw [if_neg hd] at h
      have hn : indexOfChar c ds = none := by
        cases hj : indexOfChar c ds with
        | none => rfl
        | some j => rw [hj] at h; simp at h
      have hdc : ¬ c = d := fun e => hd (by simp [e])
      simp only [List.mem_cons, not_or]
      exact ⟨hdc, ih hn⟩


theorem trimSpace_empty : trimSpace "" = "" := by decide

theorem parseHeaderLine_eq (lowerRune : Char → Char) (headers : StrMap) (line : String) :
    parseHeaderLine lowerRune headers line =
      match headerEntry lowerRune line with
      | some e => headers.set e.1 e.2
      | none => headers := by
  unfold parseHeaderLine headerEntry
  cases indexOfChar ':' line.data with
  | none => rfl
  | some i =>
    dsimp only
    split
    · split <;> rfl
    · rfl

theorem headerEntry_iff (lowerRune : Char → Char) (line key value : String) :
    headerEntry lowerRune line = some (key, value) ↔ LineGives lowerRune line key value := by
  constructor
  · intro h
    unfold headerEntry at h
    cases hi : indexOfChar ':' line.data with
    | none => rw [hi] at h; simp at h
    | some i =>
      rw [hi] at h
      dsimp only at h
      split at h
      · split at h
        · rename_i hpos hne
          simp only [Bool.and_eq_true, bne_iff_ne, ne_eq] at hne
          injection h with h
          injection h with hk hv
          obtain ⟨hdec, hnot⟩ := indexOfChar_some ':' line.data i hi
          exact ⟨line.data.take i, line.data.drop (i + 1), hdec, hnot, hk.symm, hv.symm,
            hk ▸ hne.1, hv ▸ hne.2⟩
        · simp at h
      · simp at h
  · rintro ⟨name, rest, hdec, hnot, hk, hv, hkne, hvne⟩
    have hidx : indexOfChar ':' line.data = some name.length := by
      rw [hdec]
      exact indexOfChar_decomp ':' name rest hnot
    have hpos : name.length > 0 := by
      cases name with
      | nil =>
        exfalso
        apply hkne
        rw [hk]
        exact trimSpace_empty
      | cons a as => simp
    have htake : line.data.take name.length = name := by
      rw [hdec]
      simp
    have hdrop : line.data.drop (name.length + 1) = rest := by
      rw [hdec]
      simp
    unfold headerEntry
    rw [hidx]
    dsimp only
    rw [if_pos hpos, htake, hdrop, ← hk, ← hv]
    rw [if_pos (by simp [hkne, hvne])]

theorem lineGives_unique (lowerRune : Char → Char) (line k1 v1 k2 v2 : String)
    (h1 : LineGives lowerRune line k1 v1) (h2 : LineGives lowerRune line k2 v2) :
    k1 = k2 ∧ v1 = v2 := by
  have e1 := (headerEntry_iff lowerRune line k1 v1).2 h1
  have e2 := (headerEntry_iff lowerRune line k2 v2).2 h2
  rw [e1] at e2
  injection e2 with e2
  injection e2 with hk hv
  exact ⟨hk, hv⟩

theorem lookup_set_self (m : StrMap) (k v : String) : (m.set k v).lookup k = some v := by
  unfold StrMap.set
  induction m with
  | nil => simp [List.lookup]
  | cons e rest ih =>
    obtain ⟨a, b⟩ := e
    by_cases he : a = k
    · simp only [List.filter, he, bne_self_eq_false]
      exact ih
    · have hne : (a != k) = true := by simpa using he
      have hne2 : (k == a) = false := by simpa using fun h : k = a => he h.symm
      simp only [List.filter, hne, List.cons_append, List.lookup]
      rw [hne2]
      exact ih

theorem lookup_set_other (m : StrMap) (k v k2 : String) (hk : k2 ≠ k) :
    (m.set k v).lookup k2 = m.lookup k2 := by
  unfold StrMap.set
  induction m with
  | nil =>
    have hne2 : (k2 == k) = false := by simpa using hk
    simp [List.lookup, hne2]
  | cons e rest ih =>
    obtain ⟨a, b⟩ := e
    by_cases he : a = k
    · have hne2 : (k2 == a) = false := by simpa [he] using hk
      simp only [List.filter, he, bne_self_eq_false, List.lookup]
      rw [he] at hne2
      rw [hne2]
      exact ih
    · have hne : (a != k) = true := by simpa using he
      simp only [List.filter, hne, List.cons_append, List.lookup]
      rw [ih]


theorem split_last {α : Type} (ls before after : List α) (l line : α)
    (h : ls ++ [l] = before ++ line :: after) :
    (after = [] ∧ before = ls ∧ line = l) ∨
    (∃ rest, after = rest ++ [l] ∧ ls = before ++ line :: rest) := by
  rcases List.eq_nil_or_concat after with ha | ⟨rest, x, ha⟩
  · left
    subst ha
    have h2 := List.append_inj' h rfl
    refine ⟨rfl, h2.1.symm, ?_⟩
    have h3 := h2.2
    injection h3 with h3 _
    exact h3.symm
  · right
    rw [List.concat_eq_append] at ha
    subst ha
    have h' : ls ++ [l] = (before ++ line :: rest) ++ [x] := by
      rw [h]
      simp
    have h2 := List.append_inj' h' rfl
    have h3 := h2.2
    injection h3 with h3 _
    exact ⟨rest, by rw [h3], h2.1⟩

theorem fold_step_other (lowerRune : Char → Char) (m : StrMap) (l key : String)
    (hno : ∀ v, ¬ LineGives lowerRune l key v) :
    (parseHeaderLine lowerRune m l).lookup key = m.lookup key := by
  rw [parseHeaderLine_eq]
  cases he : headerEntry lowerRune l with
  | none => rfl
  | some e =>
    obtain ⟨k, v⟩ := e
    dsimp only
    have hk : key ≠ k := by
      intro h
      apply hno v
      rw [h]
      exact (headerEntry_iff lowerRune l k v).1 he
    exact lookup_set_other m k v key hk

theorem fold_step_same (lowerRune : Char → Char) (m : StrMap) (l key v : String)
    (hg : LineGives lowerRune l key v) :
    (parseHeaderLine lowerRune m l).lookup key = some v := by
  rw [parseHeaderLine_eq, (headerEntry_iff lowerRune l key v).2 hg]
  exact lookup_set_self m key v

theorem fold_lookup (lowerRune : Char → Char) (lines : List String) (key value : String) :
    (lines.foldl (parseHeaderLine lowerRune) []).lookup key = some value ↔
      ∃ before line after, lines = before ++ line :: after ∧
        LineGives lowerRune line key value ∧
        ∀ l ∈ after, ∀ v, ¬ LineGives lowerRune l key v := by
  induction lines using List.reverseRecOn with
  | nil =>
    constructor
    · intro h
      simp [List.lookup] at h
    · rintro ⟨before, line, after, h, _⟩
      simp at h
  | append_singleton ls l ih =>
    rw [List.foldl_append]
    simp only [List.foldl_cons, List.foldl_nil]
    by_cases hex : ∃ v, LineGives lowerRune l key v
    · obtain ⟨v, hv⟩ := hex
      rw [fold_step_same lowerRune _ l key v hv]
      constructor
      · intro h
        injection h with h
        subst h
        exact ⟨ls, l, [], rfl, hv, by simp⟩
      · rintro ⟨before, line, after, hsplit, hg, hafter⟩
        rcases split_last ls before after l line hsplit with ⟨_, _, hline⟩ | ⟨rest, hrest, _⟩
        · rw [hline] at hg
          rw [(lineGives_unique lowerRune l key v key value hv hg).2]
        · exfalso
          exact hafter l (by rw [hrest]; simp) v hv
    · have hno : ∀ v, ¬ LineGives lowerRune l key v := fun v hv => hex ⟨v, hv⟩
      rw [fold_step_other lowerRune _ l key hno, ih]
      constructor
      · rintro ⟨before, line, after, hsplit, hg, hafter⟩
        refine ⟨before, line, after ++ [l], by rw [hsplit]; simp, hg, ?_⟩
        intro x hx
        rcases List.mem_append.1 hx with hx | hx
        · exact hafter x hx
        · rw [List.mem_singleton.1 hx]
          exact hno
      · rintro ⟨before, line, after, hsplit, hg, hafter⟩
        rcases split_last ls before after l line hsplit with ⟨_, _, hline⟩ | ⟨rest, hrest, hls⟩
        · exfalso
          rw [hline] at hg
          exact hno value hg
        · refine ⟨before, line, rest, hls, hg, ?_⟩
          intro x hx
          exact hafter x (by rw [hrest]; exact List.mem_append_left _ hx)

theorem mem_trimSpace (s : String) (c : Char) (h : c ∈ (trimSpace s).data) : c ∈ s.data := by
  unfold trimSpace at h
  simp only [List.mem_reverse] at h
  have h1 := (List.dropWhile_sublist isSpace).subset h
  rw [List.mem_reverse] at h1
  exact (List.dropWhile_sublist isSpace).subset h1

theorem headerEntry_wellformed (lowerRune : Char → Char) (line key value : String)
    (h : headerEntry lowerRune line = some (key, value)) :
    key ≠ "" ∧ value ≠ "" ∧ ∀ c ∈ key.data, ∃ d, c = lowerRune d := by
  obtain ⟨name, rest, _, _, hk, _, hkne, hvne⟩ := (headerEntry_iff lowerRune line key value).1 h
  refine ⟨hkne, hvne, ?_⟩
  intro c hc
  rw [hk] at hc
  have hmem := mem_trimSpace _ c hc
  simp only [List.mem_map] at hmem
  obtain ⟨d, _, hd⟩ := hmem
  exact ⟨d, hd.symm⟩

theorem set_keys_nodup (m : StrMap) (k v : String) (h : (m.map Prod.fst).Nodup) :
    ((m.set k v).map Prod.fst).Nodup := by
  unfold StrMap.set
  rw [List.map_append, List.nodup_append]
  refine ⟨(List.filter_sublist m).map Prod.fst |>.nodup h, by simp, ?_⟩
  intro a ha hb
  simp only [List.map_cons, List.map_nil, List.mem_singleton] at hb
  rw [List.mem_map] at ha
  obtain ⟨e, he, hea⟩ := ha
  rw [List.mem_filter] at he
  have hne : e.1 ≠ k := by simpa using he.2
  exact hne (hea.trans hb)

theorem mem_set (m : StrMap) (k v : String) (e : String × String) (h : e ∈ m.set k v) :
    e ∈ m ∨ e = (k, v) := by
  unfold StrMap.set at h
  rw [List.mem_append, List.mem_singleton] at h
  rcases h with h | h
  · exact Or.inl (List.mem_filter.1 h).1
  · exact Or.inr h

theorem lookup_of_mem_nodup (m : StrMap) (e : String × String) (hnd : (m.map Prod.fst).Nodup)
    (h : e ∈ m) : m.lookup e.1 = some e.2 := by
  induction m with
  | nil => cases h
  | cons x rest ih =>
    obtain ⟨a, b⟩ := x
    rw [List.map_cons, List.nodup_cons] at hnd
    rcases List.mem_cons.1 h with h | h
    · rw [h]
      simp [List.lookup]
    · have hne : (e.1 == a) = false := by
        have : e.1 ≠ a := by
          intro heq
          have hm : e.1 ∈ rest.map Prod.fst := List.mem_map_of_mem Prod.fst h
          rw [heq] at hm
          exact hnd.1 hm
        simpa using this
      simp only [List.lookup]
      rw [hne]
      exact ih hnd.2 h

theorem fold_wellformed (lowerRune : Char → Char) (lines : List String) :
    ((lines.foldl (parseHeaderLine lowerRune) []).map Prod.fst).Nodup ∧
    ∀ e ∈ lines.foldl (parseHeaderLine lowerRune) [],
      e.1 ≠ "" ∧ e.2 ≠ "" ∧ ∀ c ∈ e.1.data, ∃ d, c = lowerRune d := by
  induction lines using List.reverseRecOn with
  | nil =>
    constructor
    · exact List.nodup_nil
    · intro e he
      cases he
  | append_singleton ls l ih =>
    rw [List.foldl_append]
    simp only [List.foldl_cons, List.foldl_nil]
    rw [parseHeaderLine_eq]
    cases hent : headerEntry lowerRune l with
    | none => exact ih
    | some x =>
      obtain ⟨k, v⟩ := x
      dsimp only
      constructor
      · exact set_keys_nodup _ k v ih.1
      · intro e he
        rcases mem_set _ k v e he with h | h
        · exact ih.2 e h
        · rw [h]
          exact headerEntry_wellformed lowerRune l k v hent

theorem parseHeaders_eq_fold (lowerRune : Char → Char) (headerStr : String) :
    parseHeaders lowerRune headerStr =
      (headerLines headerStr).foldl (parseHeaderLine lowerRune) [] := by
  unfold parseHeaders
  by_cases h : headerStr = ""
  · rw [if_pos (by simp [h]), h]
    rfl
  · rw [if_neg (by simp [h])]

/-- Claim C14.  `parseHeaders`: for every input string, with `lines` its newline-split
pieces, the returned map gives `value` for `key` exactly when some line contains a colon,
the text before its first colon, lower-cased and trimmed, is the non-empty `key`, the text
after it, trimmed, is the non-empty `value`, and no later line gives an entry for `key`
(the last one wins); lines without a colon or with an empty key or value contribute
nothing.  Hence no key occurs twice, every key and every value of the map is non-empty,
and every character of a key is a lower-cased one. -/
theorem parseHeaders_spec (lowerRune : Char → Char) (headerStr : String) :
    (∀ key value, (parseHeaders lowerRune headerStr).lookup key = some value ↔
      ∃ before line after, headerLines headerStr = before ++ line :: after ∧
        LineGives lowerRune line key value ∧
        ∀ l ∈ after, ∀ v, ¬ LineGives lowerRune l key v) ∧
    ((parseHeaders lowerRune headerStr).map Prod.fst).Nodup ∧
    (∀ e ∈ parseHeaders lowerRune headerStr,
      (parseHeaders lowerRune headerStr).lookup e.1 = some e.2 ∧
      e.1 ≠ "" ∧ e.2 ≠ "" ∧ ∀ c ∈ e.1.data, ∃ d, c = lowerRune d) := by
  rw [parseHeaders_eq_fold]
  obtain ⟨hnd, hwf⟩ := fold_wellformed lowerRune (headerLines headerStr)
  refine ⟨fun key value => fold_lookup lowerRune _ key value, hnd, ?_⟩
  intro e he
  exact ⟨lookup_of_mem_nodup _ e hnd he, hwf e he⟩

/-- Claim C14 on six lines: two lines give the key `referer` and the later one wins, one
line is trimmed, and the lines with an empty name, without a colon or with an empty value
give nothing. -/
theorem parseHeaders_spec_witness :
    parseHeaders toLowerRune
      "Referer: https://a.b/c\nX-Y:  v \n:zz\nnocolon\nreferer:second\nEmpty:  " =
      [("x-y", "v"), ("referer", "second")] ∧
    (parseHeaders toLowerRune
      "Referer: https://a.b/c\nX-Y:  v \n:zz\nnocolon\nreferer:second\nEmpty:  ").lookup
      "referer" = some "second" :=
  ⟨by decide,
    ((parseHeaders_spec toLowerRune
      "Referer: https://a.b/c\nX-Y:  v \n:zz\nnocolon\nreferer:second\nEmpty:  ").1
      "referer" "second").2
      ⟨["Referer: https://a.b/c", "X-Y:  v ", ":zz", "nocolon"], "referer:second",
        ["Empty:  "], by decide,
        ⟨"referer".data, "second".data, by decide, by decide, by decide, by decide,
          by decide, by decide⟩,
        fun l hl v hv => by
          rw [List.mem_singleton.1 hl] at hv
          have he := (headerEntry_iff toLowerRune "Empty:  " "referer" v).2 hv
          have hnone : headerEntry toLowerRune "Empty:  " = none := by decide
          rw [hnone] at he
          exact Option.noConfusion he⟩⟩

end PupSniffer
